import Mathlib

/-!
# Verification of the labeling-QC rule validation and rule-based fix engine

Shallow embedding of the core of the `labeling_qc` repository:

* `src/src/core/rule_validator.py` — the ten-rule `RuleValidator`
  (`validate_all_rules` and `_validate_r001`..`_validate_r010`);
* `src/src/core/rule_validator_backup.py` — the backup validator's
  `_validate_r003_law_structure` (the legal-structure rule);
* `src/src/core/rule_fixer.py` — the `RuleBasedFixer` passes
  (`fix_unnecessary_elements`, `fix_label_types`, `fix_table_structure`,
  `remove_forbidden_tags`, `run_all_rule_fixes`, `save_fixes`, `__init__`);
* `src/backend/src/models/quality_issue.py` — the `QualityIssue` /
  `FixResult` value objects and the issue constructor helpers.

Elements are modelled as records with the fields the core reads
(`id`, `pageIndex`, `category.label`, `category.type`, `content.text`,
`bbox.top`, `table.cells`, `tags`); missing-key defaults of the Python
`.get` chains are folded into the field types (a missing `category.type`
key is `Option.none`, missing text/label are `""`).  Python regular
expressions are embedded as explicit character-list matchers, one per
regex, anchored exactly as the source patterns are (`re.search` with a
`^`-anchored pattern is a prefix match; `$` is end of string on the
already-stripped inputs the validator feeds it).  Python `\s`, `\d` and
`\w` are modelled over the character ranges that occur in this data
(ASCII whitespace and digits; word characters are ASCII alphanumerics,
underscore and Hangul syllables).  `bbox.top` is modelled as an integer:
only order comparisons on it are used.
-/

/-- One layout element of a visual-info document, with the fields the
validator and fixer read.  `ctype` is `category.type` (`none` when the
key is absent), `label` is `category.label` with the `''` default,
`text` is `content.text` with the `''` default, `top` is `bbox.top`
(default 0), `cells` is `table.cells` (default empty). -/
structure Element where
  id : String
  pageIndex : Int
  label : String
  ctype : Option String
  text : String
  top : Int
  cells : List String
  tags : List String
deriving DecidableEq, Repr

/-- A parsed visual-info document: the top-level `elements` array. -/
structure Document where
  elements : List Element
deriving DecidableEq, Repr

/-- The `metadata` map of a `QualityIssue`, restricted to the keys the
code ever writes: `old_label`, `new_label`, `target_type`,
`duplicate_of`, `text`.  An absent key is `none`. -/
structure IssueMetadata where
  oldLabel : Option String := none
  newLabel : Option String := none
  targetType : Option String := none
  duplicateOf : Option String := none
  textVal : Option String := none
deriving DecidableEq, Repr

/-- `QualityIssue` from `src/backend/src/models/quality_issue.py`. -/
structure QualityIssue where
  rule_id : String
  severity : String
  message : String
  file_path : String
  element_id : Option String := none
  page_index : Option Int := none
  category : Option String := none
  suggested_fix : Option String := none
  auto_fixable : Bool := false
  metadata : IssueMetadata := {}
deriving DecidableEq, Repr

/-- Python values that appear in `FixResult.before_value`/`after_value`:
strings and lists of strings. -/
inductive PyVal where
  | str (s : String)
  | strList (l : List String)
deriving DecidableEq, Repr

/-- `FixResult` from `src/backend/src/models/quality_issue.py`. -/
structure FixResult where
  success : Bool
  description : String
  before_value : Option PyVal := none
  after_value : Option PyVal := none
  error_message : Option String := none
deriving DecidableEq, Repr

/-! ## Character and string utilities (Python `str.strip`, slicing) -/

/-- Python `\s` on the inputs at hand: ASCII whitespace. -/
def isSpaceCh (c : Char) : Bool :=
  c == ' ' || c == '\t' || c == '\n' || c == '\x0d' || c == '\x0c' || c == '\x0b'

/-- A Hangul syllable (U+AC00–U+D7A3). -/
def isHangulCh (c : Char) : Bool :=
  0xAC00 ≤ c.toNat && c.toNat ≤ 0xD7A3

/-- Python `\w` without digits, on the character repertoire of this
data: ASCII letters, underscore, Hangul syllables. -/
def isWordNonDigitCh (c : Char) : Bool :=
  (c.isAlpha || c == '_' || isHangulCh c) && !c.isDigit

/-- `str.strip()` on a character list. -/
def stripL (cs : List Char) : List Char :=
  (((cs.dropWhile isSpaceCh).reverse).dropWhile isSpaceCh).reverse

/-- `str.strip()`. -/
def strip (s : String) : String := ⟨stripL s.data⟩

/-- Python slicing `s[:n]`. -/
def takeChars (n : Nat) (s : String) : String := ⟨s.data.take n⟩

/-- Does `p` occur as a prefix of `cs`? (helper for the matchers) -/
def startsWithL : List Char → List Char → Bool
  | [], _ => true
  | _ :: _, [] => false
  | p :: ps, c :: cs => p == c && startsWithL ps cs

/-- `re.search` driver: try the prefix matcher at every start position,
left to right (the empty suffix included, as Python does). -/
def searchFrom (m : List Char → Bool) : List Char → Bool
  | [] => m []
  | c :: cs => m (c :: cs) || searchFrom m cs

/-- Substring containment: Python `pat in text` / `re.search` on a
literal pattern. -/
def containsSub (pat : String) (cs : List Char) : Bool :=
  searchFrom (startsWithL pat.data) cs

/-! ## Regex matchers

One definition per regular expression of the source, embedded as a
prefix matcher on character lists.  All the `^`-anchored patterns below
are used with `re.search`, which for a `^` pattern (no MULTILINE flag)
is exactly a prefix match. -/

/-- `^제\s*\d+\s*X` for a final literal `X` — the backup validator's
statute patterns `^제\s*\d+\s*[편장절조]` (one call per final char). -/
def matchJeNum (target : Char) (cs : List Char) : Bool :=
  match cs with
  | [] => false
  | c :: rest =>
    c == '제' &&
      (let r1 := rest.dropWhile isSpaceCh
       let digits := r1.takeWhile Char.isDigit
       let r2 := (r1.dropWhile Char.isDigit).dropWhile isSpaceCh
       !digits.isEmpty &&
         match r2 with
         | t :: _ => t == target
         | [] => false)

/-- `re.search(r'[가-힣]+법$', text)`: some run of Hangul syllables
followed by `법` at the end of the string.  Equivalently (and this is
how it is decided): the text ends in a Hangul syllable followed by
`법`. -/
def matchEndsInBeop (cs : List Char) : Bool :=
  match cs.reverse with
  | b :: h :: _ => b == '법' && isHangulCh h
  | _ => false

/-- `^[IVX]+\.\s+` (rule R003 title pattern 1). -/
def matchRomanTitle (cs : List Char) : Bool :=
  let run := cs.takeWhile (fun c => c == 'I' || c == 'V' || c == 'X')
  let rest := cs.dropWhile (fun c => c == 'I' || c == 'V' || c == 'X')
  !run.isEmpty &&
    match rest with
    | '.' :: r2 =>
      match r2 with
      | c :: _ => isSpaceCh c
      | [] => false
    | _ => false

/-- `^\d+\.\s+[가-힣]+` (rule R003 title pattern 2). -/
def matchNumberedTitle (cs : List Char) : Bool :=
  let digits := cs.takeWhile Char.isDigit
  let rest := cs.dropWhile Char.isDigit
  !digits.isEmpty &&
    match rest with
    | '.' :: r2 =>
      let sp := r2.takeWhile isSpaceCh
      let r3 := r2.dropWhile isSpaceCh
      !sp.isEmpty &&
        match r3 with
        | c :: _ => isHangulCh c
        | [] => false
    | _ => false

/-- `^[가나다라마바사]\.\s+` (rule R003 title pattern 3). -/
def matchGanadaTitle (cs : List Char) : Bool :=
  match cs with
  | a :: '.' :: c :: _ =>
    (a == '가' || a == '나' || a == '다' || a == '라' || a == '마' || a == '바'
      || a == '사') && isSpaceCh c
  | _ => false

/-- `^제\d+[장절조]\s+` (rule R003 title pattern 4; note: no spaces
allowed between `제` and the digits here, unlike the backup patterns). -/
def matchJeChapterTitle (cs : List Char) : Bool :=
  match cs with
  | [] => false
  | c :: rest =>
    c == '제' &&
      (let digits := rest.takeWhile Char.isDigit
       let r2 := rest.dropWhile Char.isDigit
       !digits.isEmpty &&
         match r2 with
         | u :: v :: _ => (u == '장' || u == '절' || u == '조') && isSpaceCh v
         | _ => false)

/-- `\d{1,2}` followed by the continuation `k`, with the regex engine's
backtracking: the two-digit reading is tried first, the one-digit
reading second. -/
def oneOrTwoDigits (k : List Char → Bool) (cs : List Char) : Bool :=
  match cs with
  | [] => false
  | a :: rest =>
    a.isDigit &&
      ((match rest with
        | b :: rest2 => b.isDigit && k rest2
        | [] => false)
       || k rest)

/-- `\d{1,2}` followed by the literal `t`, continuing with `k`. -/
def oneOrTwoDigitsThen (t : Char) (k : List Char → Bool) (cs : List Char) : Bool :=
  oneOrTwoDigits
    (fun r =>
      match r with
      | c :: r2 => c == t && k r2
      | [] => false)
    cs

/-- `\d{1,2}$`: one or two digits ending the string. -/
def oneOrTwoDigitsEnd (cs : List Char) : Bool :=
  oneOrTwoDigits (fun r => r.isEmpty) cs

/-- `\d{4}` followed by `k`. -/
def fourDigitsThen (k : List Char → Bool) (cs : List Char) : Bool :=
  match cs with
  | a :: b :: c :: d :: rest => a.isDigit && b.isDigit && c.isDigit && d.isDigit && k rest
  | _ => false

/-- `^\d{4}년\s*\d{1,2}월\s*\d{1,2}일` (date pattern "2021년 2월 3일"). -/
def matchDateKorean (cs : List Char) : Bool :=
  fourDigitsThen
    (fun r =>
      match r with
      | c :: r2 =>
        c == '년' &&
          oneOrTwoDigitsThen '월'
            (fun r3 => oneOrTwoDigitsThen '일' (fun _ => true) (r3.dropWhile isSpaceCh))
            (r2.dropWhile isSpaceCh)
      | [] => false)
    cs

/-- `^\d{4}\.\s*\d{1,2}\.\s*\d{1,2}$` (date pattern "2021. 2. 3"). -/
def matchDateDots (cs : List Char) : Bool :=
  fourDigitsThen
    (fun r =>
      match r with
      | c :: r2 =>
        c == '.' &&
          oneOrTwoDigitsThen '.'
            (fun r3 => oneOrTwoDigitsEnd (r3.dropWhile isSpaceCh))
            (r2.dropWhile isSpaceCh)
      | [] => false)
    cs

/-- `^\d{4}-\d{1,2}-\d{1,2}$` (date pattern "2021-02-03"; unlike the
dot patterns this one allows no whitespace — each dash must be followed
directly by a digit). -/
def matchDateDashes (cs : List Char) : Bool :=
  fourDigitsThen
    (fun r =>
      match r with
      | c :: r2 =>
        c == '-' && oneOrTwoDigitsThen '-' (fun r3 => oneOrTwoDigitsEnd r3) r2
      | [] => false)
    cs

/-- `^\d{4}\.\s*\d{1,2}\.\s*\d{1,2}\s*작성` (date pattern "2021. 2. 3 작성"). -/
def matchDateJakseong (cs : List Char) : Bool :=
  fourDigitsThen
    (fun r =>
      match r with
      | c :: r2 =>
        c == '.' &&
          oneOrTwoDigitsThen '.'
            (fun r3 =>
              oneOrTwoDigits
                (fun r4 => startsWithL "작성".data (r4.dropWhile isSpaceCh))
                (r3.dropWhile isSpaceCh))
            (r2.dropWhile isSpaceCh)
      | [] => false)
    cs

/-- `^\s*\(\d+\)` (backup R003 subitem pattern "(1)"). -/
def matchParenItem (cs : List Char) : Bool :=
  match cs.dropWhile isSpaceCh with
  | c :: rest =>
    c == '(' &&
      (let digits := rest.takeWhile Char.isDigit
       let r2 := rest.dropWhile Char.isDigit
       !digits.isEmpty &&
         match r2 with
         | t :: _ => t == ')'
         | [] => false)
  | [] => false

/-- `^\s*\d+\.` (backup R003 subitem pattern "1."). -/
def matchDigitDotItem (cs : List Char) : Bool :=
  let r := cs.dropWhile isSpaceCh
  let digits := r.takeWhile Char.isDigit
  let r2 := r.dropWhile Char.isDigit
  !digits.isEmpty &&
    match r2 with
    | t :: _ => t == '.'
    | [] => false

/-- `^\s*[가-힣]\.` (backup R003 subitem pattern "가."). -/
def matchHangulDotItem (cs : List Char) : Bool :=
  match cs.dropWhile isSpaceCh with
  | a :: b :: _ => isHangulCh a && b == '.'
  | _ => false

/-! ## Issue constructors (`src/backend/src/models/quality_issue.py`) -/

/-- Python truthiness of an optional string (`None` and `''` are falsy). -/
def truthyStr : Option String → Bool
  | none => false
  | some s => s ≠ ""

/-- `create_label_issue` as defined in
`src/backend/src/models/quality_issue.py` (signature
`(rule_id, message, element_id, file_path, old_label=None, new_label=None,
page_index=None)`); `old_label`/`new_label` enter `metadata` only when
truthy, and `suggested_fix` is set only when `new_label` is truthy.
This is the constructor the backup validator's keyword-style calls use. -/
def createLabelIssue (ruleId message elementId filePath : String)
    (oldLabel newLabel : Option String) (pageIndex : Option Int) : QualityIssue :=
  { rule_id := ruleId
    severity := "warning"
    message := message
    file_path := filePath
    element_id := some elementId
    page_index := pageIndex
    category := some "label_type"
    suggested_fix :=
      if truthyStr newLabel then some ("라벨을 '" ++ newLabel.getD "" ++ "'로 변경") else none
    auto_fixable := true
    metadata :=
      { oldLabel := if truthyStr oldLabel then oldLabel else none
        newLabel := if truthyStr newLabel then newLabel else none } }

/-- Modelled from the spec: the module `src/models/quality_issue.py` that
`src/core/rule_validator.py` imports (`from ..models.quality_issue import …`)
is not present under `src/` — only the backend copy with an older keyword
signature is.  The active validator calls `create_label_issue`
positionally as `(rule_id, element_id, old_label, new_label, file_path,
page_index)`; per spec §3 the issue is a warning of category
`label_type`, `auto_fixable`, its open `metadata` map carries
`old_label`/`new_label`, and `suggested_fix` names the suggested label
(mirroring the backend constructor's message format). -/
def createLabelIssueSpec (ruleId elementId oldLabel newLabel filePath : String)
    (pageIndex : Int) : QualityIssue :=
  { rule_id := ruleId
    severity := "warning"
    message := "라벨 '" ++ oldLabel ++ "' → '" ++ newLabel ++ "'"
    file_path := filePath
    element_id := some elementId
    page_index := some pageIndex
    category := some "label_type"
    suggested_fix := some ("라벨을 '" ++ newLabel ++ "'로 변경")
    auto_fixable := true
    metadata := { oldLabel := some oldLabel, newLabel := some newLabel } }

/-- `create_structure_issue` from `src/backend/src/models/quality_issue.py`. -/
def createStructureIssue (ruleId desc filePath : String) : QualityIssue :=
  { rule_id := ruleId
    severity := "error"
    message := "구조 문제: " ++ desc
    file_path := filePath
    category := some "structure"
    auto_fixable := false }

/-! ## The ten rules of `RuleValidator` (`src/src/core/rule_validator.py`) -/

/-- R001 (`_validate_r001_empty_text`): issue for an element whose
stripped text is empty. -/
def r001Issue (fp : String) (e : Element) : Option QualityIssue :=
  if strip e.text = "" then
    some
      { rule_id := "R001"
        severity := "error"
        message := "빈 텍스트 요소"
        file_path := fp
        element_id := some e.id
        page_index := some e.pageIndex
        category := some "label_content"
        suggested_fix := some "요소 제거 또는 텍스트 추가"
        auto_fixable := true }
  else none

def r001 (els : List Element) (fp : String) : List QualityIssue :=
  els.filterMap (r001Issue fp)

/-- The normalized text pattern of R002:
`re.sub(r'[0-9\W]+', '', text.lower())` — lowercase the stripped text,
keep only non-digit word characters. -/
def normalizePattern (s : String) : String :=
  ⟨(s.data.map Char.toLower).filter isWordNonDigitCh⟩

/-- One entry of R002's `text_patterns` groups. -/
structure R002Item where
  element_id : String
  text : String
  label : String
  element : Element
deriving DecidableEq, Repr

/-- Append `x` under key `k` of an insertion-ordered association list of
lists (Python dict-of-lists with `if pattern not in …: … = []` then
`append`). -/
def addAssoc {κ α : Type} [DecidableEq κ] :
    List (κ × List α) → κ → α → List (κ × List α)
  | [], k, x => [(k, [x])]
  | (k', xs) :: rest, k, x =>
    if k' = k then (k', xs ++ [x]) :: rest else (k', xs) :: addAssoc rest k x

/-- The group an element contributes to in R002's first loop, if any. -/
def r002ItemOf (e : Element) : Option (String × R002Item) :=
  let text := strip e.text
  if text = "" ∨ e.label = "" then none
  else
    let pattern := normalizePattern text
    if pattern.length < 3 then none
    else some (pattern, ⟨e.id, text, e.label, e⟩)

def buildGroupsStep (gs : List (String × List R002Item)) (e : Element) :
    List (String × List R002Item) :=
  match r002ItemOf e with
  | none => gs
  | some (p, it) => addAssoc gs p it

/-- R002's `text_patterns`: the insertion-ordered grouping of elements
by normalized pattern. -/
def buildGroups (els : List Element) : List (String × List R002Item) :=
  els.foldl buildGroupsStep []

/-- Occurrence counts of labels in first-seen order (`label_counts`). -/
def bumpCount : List (String × Nat) → String → List (String × Nat)
  | [], l => [(l, 1)]
  | (k, c) :: rest, l =>
    if k = l then (k, c + 1) :: rest else (k, c) :: bumpCount rest l

def labelCounts (items : List R002Item) : List (String × Nat) :=
  items.foldl (fun cs it => bumpCount cs it.label) []

/-- `max(label_counts, key=label_counts.get)`: the first key (in dict
order) whose count is maximal — Python's `max` keeps the incumbent on
ties. -/
def maxCountEntry : List (String × Nat) → String × Nat
  | [] => ("", 0)
  | e :: rest => rest.foldl (fun best kc => if kc.2 > best.2 then kc else best) e

def recommendedLabel (items : List R002Item) : String :=
  (maxCountEntry (labelCounts items)).1

/-- Does some item's label differ from another's (`len(set(labels)) > 1`)? -/
def distinctLabels : List R002Item → Bool
  | [] => false
  | it :: rest => rest.any (fun x => x.label ≠ it.label) || distinctLabels rest

/-- R002 (`_validate_r002_label_consistency`). -/
def r002 (els : List Element) (fp : String) : List QualityIssue :=
  (buildGroups els).flatMap
    (fun g =>
      if g.2.length < 2 then []
      else if distinctLabels g.2 then
        g.2.filterMap
          (fun it =>
            if it.label ≠ recommendedLabel g.2 then
              some (createLabelIssueSpec "R002" it.element_id it.label
                (recommendedLabel g.2) fp it.element.pageIndex)
            else none)
      else [])

/-- R003's `title_patterns` disjunction. -/
def isTitlePattern (cs : List Char) : Bool :=
  matchRomanTitle cs || matchNumberedTitle cs || matchGanadaTitle cs
    || matchJeChapterTitle cs

/-- R003 (`_validate_r003_title_patterns`). -/
def r003Issue (fp : String) (e : Element) : Option QualityIssue :=
  let t := stripL e.text.data
  if t = [] then none
  else if isTitlePattern t ∧ ¬(e.label = "ParaTitle" ∨ e.label = "DocTitle") then
    some (createLabelIssueSpec "R003" e.id e.label "ParaTitle" fp e.pageIndex)
  else none

def r003 (els : List Element) (fp : String) : List QualityIssue :=
  els.filterMap (r003Issue fp)

/-- The four `date_patterns` of R004, in R004's order. -/
def isDatePattern004 (cs : List Char) : Bool :=
  matchDateKorean cs || matchDateDots cs || matchDateDashes cs || matchDateJakseong cs

/-- The four `date_patterns` of R010, in R010's order (same patterns,
`작성` listed second). -/
def isDatePattern010 (cs : List Char) : Bool :=
  matchDateKorean cs || matchDateJakseong cs || matchDateDots cs || matchDateDashes cs

/-- R004 (`_validate_r004_date_format`). -/
def r004Issue (fp : String) (e : Element) : Option QualityIssue :=
  let t := stripL e.text.data
  if t = [] then none
  else if isDatePattern004 t ∧ e.label ≠ "Date" then
    some (createLabelIssueSpec "R004" e.id e.label "Date" fp e.pageIndex)
  else none

def r004 (els : List Element) (fp : String) : List QualityIssue :=
  els.filterMap (r004Issue fp)

/-- R005 (`_validate_r005_table_structure`): a TABLE element with no
cells. -/
def r005Issue (fp : String) (e : Element) : Option QualityIssue :=
  if e.cells = [] then
    some
      { rule_id := "R005"
        severity := "error"
        message := "테이블에 셀이 없습니다"
        file_path := fp
        element_id := some e.id
        category := some "structure"
        auto_fixable := false }
  else none

def r005 (els : List Element) (fp : String) : List QualityIssue :=
  (els.filter (fun e => e.ctype == some "TABLE")).filterMap (r005Issue fp)

/-- Stable insertion into a list sorted ascending by `bbox.top`
(an element is placed after all elements with a key ≤ its own, so the
fold below is Python's stable `sorted(..., key=top)`). -/
def insertTop (e : Element) : List Element → List Element
  | [] => [e]
  | f :: fs => if f.top ≤ e.top then f :: insertTop e fs else e :: f :: fs

def sortByTop (els : List Element) : List Element :=
  els.foldl (fun acc e => insertTop e acc) []

/-- Python dict-of-lists grouping by `pageIndex`, insertion-ordered. -/
def pageGroups (els : List Element) : List (Int × List Element) :=
  els.foldl (fun gs e => addAssoc gs e.pageIndex e) []

/-- R006, one page group: compare stored order with the position in the
`bbox.top`-sorted order (`sorted_by_position.index(element)`, structural
equality as in Python). -/
def r006Group (fp : String) (pageIdx : Int) (group : List Element) : List QualityIssue :=
  let sorted := sortByTop group
  group.enum.filterMap
    (fun ie =>
      let expected := sorted.findIdx (fun x => x == ie.2)
      if ie.1 ≠ expected then
        some
          { rule_id := "R006"
            severity := "warning"
            message := "요소 순서가 읽기 순서와 다릅니다 (현재: " ++ toString ie.1
              ++ ", 예상: " ++ toString expected ++ ")"
            file_path := fp
            element_id := some ie.2.id
            page_index := some pageIdx
            category := some "structure"
            auto_fixable := true }
      else none)

/-- R006 (`_validate_r006_order_consistency`). -/
def r006 (els : List Element) (fp : String) : List QualityIssue :=
  (pageGroups els).flatMap (fun g => r006Group fp g.1 g.2)

def lookupAssocStr : List (String × String) → String → Option String
  | [], _ => none
  | (k, v) :: rest, t => if k = t then some v else lookupAssocStr rest t

/-- R007 (`_validate_r007_duplicate_elements`): `seen_texts` threads
through the scan; texts shorter than 5 characters are skipped. -/
def r007Go (fp : String) (seen : List (String × String)) :
    List Element → List QualityIssue
  | [] => []
  | e :: rest =>
    let t := strip e.text
    if t = "" ∨ t.length < 5 then r007Go fp seen rest
    else
      match lookupAssocStr seen t with
      | some firstId =>
        { rule_id := "R007"
          severity := "warning"
          message := "중복된 텍스트: " ++ takeChars 50 t ++ "..."
          file_path := fp
          element_id := some e.id
          category := some "consistency"
          suggested_fix := some "중복 요소 제거 또는 병합"
          auto_fixable := true
          metadata := { duplicateOf := some firstId, textVal := some t } }
          :: r007Go fp seen rest
      | none => r007Go fp (seen ++ [(t, e.id)]) rest

def r007 (els : List Element) (fp : String) : List QualityIssue :=
  r007Go fp [] els

/-- The forbidden-label denylist shared by R008 and the tag stripper. -/
def forbiddenLabels : List String := ["연결", "국가명", "정책명", "법률명", "요약"]

/-- R008 (`_validate_r008_forbidden_labels`). -/
def r008Issue (fp : String) (e : Element) : Option QualityIssue :=
  if e.label ∈ forbiddenLabels then
    some
      { rule_id := "R008"
        severity := "error"
        message := "금지된 라벨 사용: " ++ e.label
        file_path := fp
        element_id := some e.id
        category := some "label_type"
        suggested_fix := some "적절한 라벨로 변경"
        auto_fixable := true }
  else none

def r008 (els : List Element) (fp : String) : List QualityIssue :=
  els.filterMap (r008Issue fp)

/-- R009 (`_validate_r009_specific_text_labels`): `원문`, `번역문`,
`본문` must be `ParaText`. -/
def r009Issue (fp : String) (e : Element) : Option QualityIssue :=
  if strip e.text ∈ ["원문", "번역문", "본문"] ∧ e.label ≠ "ParaText" then
    some (createLabelIssueSpec "R009" e.id e.label "ParaText" fp e.pageIndex)
  else none

def r009 (els : List Element) (fp : String) : List QualityIssue :=
  els.filterMap (r009Issue fp)

/-- R010 (`_validate_r010_date_pattern_labels`). -/
def r010Issue (fp : String) (e : Element) : Option QualityIssue :=
  let t := stripL e.text.data
  if t = [] then none
  else if isDatePattern010 t ∧ e.label ≠ "Date" then
    some (createLabelIssueSpec "R010" e.id e.label "Date" fp e.pageIndex)
  else none

def r010 (els : List Element) (fp : String) : List QualityIssue :=
  els.filterMap (r010Issue fp)

/-- `validate_all_rules`: short-circuit on an empty element list, else
run the ten rules in order and concatenate their issues. -/
def validateAllRules (d : Document) (fp : String) : List QualityIssue :=
  if d.elements = [] then [createStructureIssue "STRUCTURE_001" "요소가 없습니다" fp]
  else
    r001 d.elements fp ++ r002 d.elements fp ++ r003 d.elements fp
      ++ r004 d.elements fp ++ r005 d.elements fp ++ r006 d.elements fp
      ++ r007 d.elements fp ++ r008 d.elements fp ++ r009 d.elements fp
      ++ r010 d.elements fp

/-! ## The backup validator's legal-structure rule
(`src/src/core/rule_validator_backup.py`, `_validate_r003_law_structure`) -/

/-- `issue.metadata['target_type'] = …` after `create_label_issue`. -/
def setTargetType (q : QualityIssue) (t : String) : QualityIssue :=
  { q with metadata := { q.metadata with targetType := some t } }

/-- The statute-heading disjunction of the backup R003 (`~법` at the
end, or `제<N>편/장/절/조` at the start; the source's `if/elif` chain on
five `re.search` calls). -/
def isStatuteHeading (cs : List Char) : Bool :=
  matchEndsInBeop cs || matchJeNum '편' cs || matchJeNum '장' cs
    || matchJeNum '절' cs || matchJeNum '조' cs

/-- The numbered-subitem disjunction of the backup R003
(`^\s*\(\d+\)`, `^\s*\d+\.`, `^\s*[가-힣]\.`). -/
def isSubitemPattern (cs : List Char) : Bool :=
  matchParenItem cs || matchDigitDotItem cs || matchHangulDotItem cs

/-- Issues the backup R003 emits for the element at index `i`: first
the ParaTitle issue (statute heading), then the ListText issue
(subitem following a `제<N>조` heading, `(1)`-style item at index 0, or
text containing `항`). -/
def backupR003IssuesAt (els : List Element) (fp : String) (i : Nat) (e : Element) :
    List QualityIssue :=
  let text := strip e.text
  if text = "" then []
  else
    let tl := text.data
    let paraIssues :=
      if isStatuteHeading tl ∧ e.label ≠ "ParaTitle" then
        [setTargetType
          (createLabelIssue "R003"
            ("[법령 구조] ParaTitle 필요: '" ++ takeChars 50 text ++ "...'")
            e.id fp (some e.label) (some "ParaTitle") none)
          "HEADING"]
      else []
    let shouldListText :=
      if isSubitemPattern tl then
        if i > 0 then
          match els.get? (i - 1) with
          | some p => matchJeNum '조' (strip p.text).data
          | none => false
        else matchParenItem tl
      else containsSub "항" tl && e.label ≠ "ListText"
    let listIssues :=
      if shouldListText ∧ e.label ≠ "ListText" then
        [setTargetType
          (createLabelIssue "R003"
            ("[법령 구조] ListText 필요: '" ++ takeChars 50 text ++ "...'")
            e.id fp (some e.label) (some "ListText") none)
          "LIST"]
      else []
    paraIssues ++ listIssues

def backupR003Go (els : List Element) (fp : String) :
    Nat → List Element → List QualityIssue
  | _, [] => []
  | i, e :: rest => backupR003IssuesAt els fp i e ++ backupR003Go els fp (i + 1) rest

/-- `_validate_r003_law_structure` of the backup validator. -/
def backupR003 (els : List Element) (fp : String) : List QualityIssue :=
  backupR003Go els fp 0 els

/-! ## The rule-based fixer (`src/src/core/rule_fixer.py`) -/

/-- `re.search(r"The\s*현안", text, re.IGNORECASE)`. -/
def matchTheHyeonan (cs : List Char) : Bool :=
  searchFrom
    (fun r =>
      match r with
      | t :: h :: e :: rest =>
        t.toLower == 't' && h.toLower == 'h' && e.toLower == 'e'
          && startsWithL "현안".data (rest.dropWhile isSpaceCh)
      | _ => false)
    cs

/-- `re.search(r"헤더.*정보", text, re.IGNORECASE)` — `헤더` then `정보`
later on the same line (`.` does not cross a newline). -/
def matchHeaderInfo (cs : List Char) : Bool :=
  searchFrom
    (fun r =>
      startsWithL "헤더".data r
        && containsSub "정보" ((r.drop 2).takeWhile (fun c => c ≠ '\n')))
    cs

/-- The `unnecessary_patterns` stoplist of `fix_unnecessary_elements`
(`The\s*현안`, `첨부자료`, `참고자료`, `별첨`, `^로그`, `헤더.*정보`). -/
def unnecessaryMatch (cs : List Char) : Bool :=
  matchTheHyeonan cs || containsSub "첨부자료" cs || containsSub "참고자료" cs
    || containsSub "별첨" cs || startsWithL "로그".data cs || matchHeaderInfo cs

/-- Is an element removed by pass 1 (raw, unstripped text; empty text is
skipped before the pattern loop)? -/
def removeCond (e : Element) : Bool :=
  e.text ≠ "" && unnecessaryMatch e.text.data

/-- `fix_unnecessary_elements`: drop the matching elements (removal by
descending index preserves the survivors' order, so the survivors are a
filter); one `FixResult` per removed element, in the source's reversed
emission order. -/
def fixUnnecessaryElements (els : List Element) : List Element × List FixResult :=
  (els.filter (fun e => !removeCond e),
   (els.filter removeCond).reverse.map
     (fun e =>
       { success := true
         description := "불필요한 요소 제거: " ++ takeChars 30 e.text ++ "..."
         before_value := some (.str "present")
         after_value := some (.str "removed") }))

/-- `fix_label_types` on one element, including
`_determine_correct_label`'s side effect on `category.type`: the label
moves from `ListText` to `ParaText` when the stripped text is `원문` or
`번역문`, and `category.type` becomes `PARAGRAPH` only when the
`category`/`type` keys are present (else it is left untouched). -/
def fixLabelTypesElem (e : Element) : Element × Option FixResult :=
  let t := strip e.text
  if (t = "원문" ∨ t = "번역문") ∧ e.label = "ListText" then
    ({ e with
        label := "ParaText"
        ctype := if e.ctype.isSome then some "PARAGRAPH" else e.ctype },
     some
       { success := true
         description := "라벨 타입 수정: " ++ takeChars 30 t ++ "..."
         before_value := some (.str e.label)
         after_value := some (.str "ParaText") })
  else (e, none)

def fixLabelTypes : List Element → List Element × List FixResult
  | [] => ([], [])
  | e :: rest =>
    let (e', f?) := fixLabelTypesElem e
    let (rest', fs) := fixLabelTypes rest
    (e' :: rest', f?.toList ++ fs)

/-- `_is_translation_table`: the element's `content.text` contains both
`원문` and `번역`. -/
def isTranslationTable (e : Element) : Bool :=
  containsSub "원문" e.text.data && containsSub "번역" e.text.data

/-- `_fix_translation_table_order`: a deep copy of the table with a TODO
stub where the reordering was meant to go — the copy equals the input. -/
def fixTranslationTableOrder (e : Element) : Element := e

/-- `fix_table_structure`: for each TABLE element with cells that looks
like a translation table, compare the stub's output with the table;
`table.update(fixed_table)` runs only under `fixed_table != table`,
which the deep copy makes unreachable, so the elements are returned
unchanged and the `FixResult` list is computed by that same (never
true) test. -/
def fixTableStructure (els : List Element) : List Element × List FixResult :=
  (els,
   (els.filter (fun e => e.ctype == some "TABLE")).filterMap
     (fun t =>
       if t.cells ≠ [] ∧ isTranslationTable t ∧ fixTranslationTableOrder t ≠ t then
         some
           { success := true
             description := "원문/번역문 테이블 순서 수정"
             before_value := some (.str "원본 순서")
             after_value := some (.str "원문→번역문→원문내용→번역문내용 순서") }
       else none))

/-- `remove_forbidden_tags` on one element: strip the denylisted tags;
`removed_tags` (the tags not in the cleaned list) are exactly the
forbidden ones present. -/
def removeForbiddenTagsElem (e : Element) : Element × Option FixResult :=
  let cleaned := e.tags.filter (fun t => t ∉ forbiddenLabels)
  if cleaned.length ≠ e.tags.length then
    ({ e with tags := cleaned },
     some
       { success := true
         description := "금지된 태그 제거: "
           ++ String.intercalate ", " (e.tags.filter (fun t => t ∈ forbiddenLabels))
         before_value := some (.strList e.tags)
         after_value := some (.strList cleaned) })
  else (e, none)

def removeForbiddenTags : List Element → List Element × List FixResult
  | [] => ([], [])
  | e :: rest =>
    let (e', f?) := removeForbiddenTagsElem e
    let (rest', fs) := removeForbiddenTags rest
    (e' :: rest', f?.toList ++ fs)

/-- The pass-name → results mapping returned by `run_all_rule_fixes`
(fixed keys `unnecessary`, `labels`, `order`, `tables`, `tags`). -/
structure AllFixes where
  unnecessary : List FixResult
  labels : List FixResult
  order : List FixResult
  tables : List FixResult
  tags : List FixResult
deriving DecidableEq, Repr

/-- `run_all_rule_fixes`: the five passes in order on the shared
in-memory element list (pass 3, reordering, is disabled and contributes
an empty result list). -/
def runAllRuleFixes (els : List Element) : List Element × AllFixes :=
  let (e1, f1) := fixUnnecessaryElements els
  let (e2, f2) := fixLabelTypes e1
  let (e3, f3) := fixTableStructure e2
  let (e4, f4) := removeForbiddenTags e3
  (e4, ⟨f1, f2, [], f3, f4⟩)

/-! ## Fixer construction and persistence
(`RuleBasedFixer.__init__`, `save_fixes`) -/

/-- The visual-info file as found on disk: either well formed (its
parsed document) or malformed JSON.  `json.load` is external library
code; its success/failure is the only behaviour the fixer observes. -/
inductive RawFile where
  | wellFormed (d : Document)
  | malformed
deriving DecidableEq, Repr

/-- `json.load`: parse or raise `JSONDecodeError`.  An exception is
modelled as `Except.error`. -/
def jsonLoad : RawFile → Except String Document
  | .wellFormed d => .ok d
  | .malformed => .error "json.decoder.JSONDecodeError"

/-- The fixer's state after `__init__`: whether a visual-info file was
found (`self.visualinfo_file`), and the loaded data (`none` models the
falsy empty dict `{}`). -/
structure FixerState where
  hasFile : Bool
  data : Option Document
deriving DecidableEq, Repr

/-- `RuleBasedFixer.__init__`: glob for `visualinfo/*_visualinfo.json`;
when absent, keep `visualinfo_file = None` and `visualinfo_data = {}`;
when present, `json.load` it — the call is not wrapped in any handler,
so a parse error propagates out of the constructor (an `Except.error`
here). -/
def initFixer : Option RawFile → Except String FixerState
  | none => .ok ⟨false, none⟩
  | some raw => (jsonLoad raw).map (fun d => ⟨true, some d⟩)

/-- `run_all_rule_fixes` at the state level: each pass starts with
`if not self.visualinfo_data: return fixes` — with empty data every
pass reports zero fixes and the state is untouched. -/
def runAllRuleFixesSt (s : FixerState) : FixerState × AllFixes :=
  match s.data with
  | none => (s, ⟨[], [], [], [], []⟩)
  | some d =>
    let (els', fixes) := runAllRuleFixes d.elements
    ({ s with data := some ⟨els'⟩ }, fixes)

/-- A rendering of the document for `json.dump(..., ensure_ascii=False,
indent=2)`.  The exact indentation of the Python serializer is not
reproduced; the save claims depend only on the written string being a
function of the document, written front to back. -/
def serializeElement (e : Element) : String :=
  "\x7b\"id\": \"" ++ e.id ++ "\", \"pageIndex\": " ++ toString e.pageIndex
    ++ ", \"category\": \x7b\"label\": \"" ++ e.label ++ "\""
    ++ (match e.ctype with
        | some t => ", \"type\": \"" ++ t ++ "\""
        | none => "")
    ++ "\x7d, \"content\": \x7b\"text\": \"" ++ e.text ++ "\"\x7d"
    ++ ", \"tags\": [" ++ String.intercalate ", " (e.tags.map (fun t => "\"" ++ t ++ "\""))
    ++ "]\x7d"

def serializeDoc (d : Document) : String :=
  "\x7b\"elements\": [" ++ String.intercalate ", " (d.elements.map serializeElement) ++ "]\x7d"

/-- How far the write of `save_fixes` gets.  `open(file, 'w')` truncates
the target in place; `ok` is a complete write, `failOpen` an exception
before the file is opened (disk untouched), `failDuring k` an I/O error
after `k` characters of the dump reached the disk. -/
inductive SaveOutcome where
  | ok
  | failOpen
  | failDuring (k : Nat)
deriving DecidableEq, Repr

/-- `save_fixes`: returns `False` without touching the disk when no
file/data is loaded; otherwise writes the serialized document over the
file in place, catching any exception into a `False` return.  The
result is (success flag, fixer state after, disk contents after). -/
def saveFixes (s : FixerState) (disk : String) (o : SaveOutcome) :
    Bool × FixerState × String :=
  if s.hasFile = false ∨ s.data = none then (false, s, disk)
  else
    match o with
    | .ok => (true, s, serializeDoc (s.data.getD ⟨[]⟩))
    | .failOpen => (false, s, disk)
    | .failDuring k => (false, s, takeChars k (serializeDoc (s.data.getD ⟨[]⟩)))

/-! ## The validator as a state transformer

`validate_all_rules` statement by statement: every rule receives the
document and an issue accumulator and only ever appends issues — no
statement of the validator writes to `data` or to any element, which
the threaded form makes explicit. -/

def ruleStep (rule : List Element → String → List QualityIssue) (fp : String) :
    Document × List QualityIssue → Document × List QualityIssue
  | (d, acc) => (d, acc ++ rule d.elements fp)

/-- `validate_all_rules` with the document state threaded through the
ten rule invocations. -/
def validateAllRulesSt (d : Document) (fp : String) : Document × List QualityIssue :=
  if d.elements = [] then (d, [createStructureIssue "STRUCTURE_001" "요소가 없습니다" fp])
  else
    ruleStep r010 fp (ruleStep r009 fp (ruleStep r008 fp (ruleStep r007 fp
      (ruleStep r006 fp (ruleStep r005 fp (ruleStep r004 fp (ruleStep r003 fp
        (ruleStep r002 fp (ruleStep r001 fp (d, []))))))))))

theorem validateAllRulesSt_eq (d : Document) (fp : String) :
    validateAllRulesSt d fp = (d, validateAllRules d fp) := by
  unfold validateAllRulesSt validateAllRules
  by_cases h : d.elements = [] <;> simp [h, ruleStep]

/-! ## Shape lemmas for the rule outputs -/

theorem r001_ruleId {els : List Element} {fp : String} :
    ∀ i ∈ r001 els fp, i.rule_id = "R001" := by
  intro i hi
  rw [r001, List.mem_filterMap] at hi
  obtain ⟨e, _, he⟩ := hi
  unfold r001Issue at he
  split at he
  · simp only [Option.some.injEq] at he; subst he; rfl
  · cases he

theorem r002_shape {els : List Element} {fp : String} :
    ∀ i ∈ r002 els fp, ∃ g ∈ buildGroups els, 2 ≤ g.2.length ∧ distinctLabels g.2
      ∧ ∃ it ∈ g.2, it.label ≠ recommendedLabel g.2
        ∧ i = createLabelIssueSpec "R002" it.element_id it.label
            (recommendedLabel g.2) fp it.element.pageIndex := by
  intro i hi
  rw [r002, List.mem_flatMap] at hi
  obtain ⟨g, hg, hmem⟩ := hi
  refine ⟨g, hg, ?_⟩
  split at hmem
  · cases hmem
  · split at hmem
    · rw [List.mem_filterMap] at hmem
      obtain ⟨it, hit, he⟩ := hmem
      split at he
      · simp only [Option.some.injEq] at he
        exact ⟨by omega, by assumption, it, hit, by assumption, he.symm⟩
      · cases he
    · cases hmem

theorem r002_ruleId {els : List Element} {fp : String} :
    ∀ i ∈ r002 els fp, i.rule_id = "R002" := by
  intro i hi
  obtain ⟨g, _, _, _, it, _, _, he⟩ := r002_shape i hi
  subst he; rfl

theorem r003_shape {els : List Element} {fp : String} :
    ∀ i ∈ r003 els fp, ∃ e ∈ els,
      i = createLabelIssueSpec "R003" e.id e.label "ParaTitle" fp e.pageIndex := by
  intro i hi
  rw [r003, List.mem_filterMap] at hi
  obtain ⟨e, he, hf⟩ := hi
  unfold r003Issue at hf
  dsimp only at hf
  split at hf
  · cases hf
  · split at hf
    · simp only [Option.some.injEq] at hf; exact ⟨e, he, hf.symm⟩
    · cases hf

theorem r003_ruleId {els : List Element} {fp : String} :
    ∀ i ∈ r003 els fp, i.rule_id = "R003" := by
  intro i hi
  obtain ⟨e, _, he⟩ := r003_shape i hi
  subst he; rfl

theorem r004_shape {els : List Element} {fp : String} :
    ∀ i ∈ r004 els fp, ∃ e ∈ els,
      i = createLabelIssueSpec "R004" e.id e.label "Date" fp e.pageIndex := by
  intro i hi
  rw [r004, List.mem_filterMap] at hi
  obtain ⟨e, he, hf⟩ := hi
  unfold r004Issue at hf
  dsimp only at hf
  split at hf
  · cases hf
  · split at hf
    · simp only [Option.some.injEq] at hf; exact ⟨e, he, hf.symm⟩
    · cases hf

theorem r004_ruleId {els : List Element} {fp : String} :
    ∀ i ∈ r004 els fp, i.rule_id = "R004" := by
  intro i hi
  obtain ⟨e, _, he⟩ := r004_shape i hi
  subst he; rfl

theorem r005_ruleId {els : List Element} {fp : String} :
    ∀ i ∈ r005 els fp, i.rule_id = "R005" := by
  intro i hi
  rw [r005, List.mem_filterMap] at hi
  obtain ⟨e, _, he⟩ := hi
  unfold r005Issue at he
  split at he
  · simp only [Option.some.injEq] at he; subst he; rfl
  · cases he

theorem r006_ruleId {els : List Element} {fp : String} :
    ∀ i ∈ r006 els fp, i.rule_id = "R006" := by
  intro i hi
  rw [r006, List.mem_flatMap] at hi
  obtain ⟨g, _, hmem⟩ := hi
  rw [r006Group, List.mem_filterMap] at hmem
  obtain ⟨ie, _, he⟩ := hmem
  dsimp only at he
  split at he
  · simp only [Option.some.injEq] at he; subst he; rfl
  · cases he

theorem r007Go_ruleId {fp : String} :
    ∀ {seen : List (String × String)} {els : List Element},
      ∀ i ∈ r007Go fp seen els, i.rule_id = "R007" := by
  intro seen els
  induction els generalizing seen with
  | nil => intro i hi; cases hi
  | cons e rest ih =>
    intro i hi
    unfold r007Go at hi
    dsimp only at hi
    split at hi
    · exact ih i hi
    · split at hi
      · rcases List.mem_cons.mp hi with h | h
        · subst h; rfl
        · exact ih i h
      · exact ih i hi

theorem r007_ruleId {els : List Element} {fp : String} :
    ∀ i ∈ r007 els fp, i.rule_id = "R007" := fun i hi => r007Go_ruleId i hi

theorem r008_ruleId {els : List Element} {fp : String} :
    ∀ i ∈ r008 els fp, i.rule_id = "R008" := by
  intro i hi
  rw [r008, List.mem_filterMap] at hi
  obtain ⟨e, _, he⟩ := hi
  unfold r008Issue at he
  split at he
  · simp only [Option.some.injEq] at he; subst he; rfl
  · cases he

theorem r009_shape {els : List Element} {fp : String} :
    ∀ i ∈ r009 els fp, ∃ e ∈ els,
      i = createLabelIssueSpec "R009" e.id e.label "ParaText" fp e.pageIndex := by
  intro i hi
  rw [r009, List.mem_filterMap] at hi
  obtain ⟨e, he, hf⟩ := hi
  unfold r009Issue at hf
  split at hf
  · simp only [Option.some.injEq] at hf; exact ⟨e, he, hf.symm⟩
  · cases hf

theorem r009_ruleId {els : List Element} {fp : String} :
    ∀ i ∈ r009 els fp, i.rule_id = "R009" := by
  intro i hi
  obtain ⟨e, _, he⟩ := r009_shape i hi
  subst he; rfl

theorem r010_shape {els : List Element} {fp : String} :
    ∀ i ∈ r010 els fp, ∃ e ∈ els,
      i = createLabelIssueSpec "R010" e.id e.label "Date" fp e.pageIndex := by
  intro i hi
  rw [r010, List.mem_filterMap] at hi
  obtain ⟨e, he, hf⟩ := hi
  unfold r010Issue at hf
  dsimp only at hf
  split at hf
  · cases hf
  · split at hf
    · simp only [Option.some.injEq] at hf; exact ⟨e, he, hf.symm⟩
    · cases hf

theorem r010_ruleId {els : List Element} {fp : String} :
    ∀ i ∈ r010 els fp, i.rule_id = "R010" := by
  intro i hi
  obtain ⟨e, _, he⟩ := r010_shape i hi
  subst he; rfl

/-- Membership in a nonempty document's validation output lands in one
of the ten rule blocks. -/
theorem validate_mem_cases {d : Document} {fp : String} {i : QualityIssue}
    (h : d.elements ≠ []) (hi : i ∈ validateAllRules d fp) :
    i ∈ r001 d.elements fp ∨ i ∈ r002 d.elements fp ∨ i ∈ r003 d.elements fp
      ∨ i ∈ r004 d.elements fp ∨ i ∈ r005 d.elements fp ∨ i ∈ r006 d.elements fp
      ∨ i ∈ r007 d.elements fp ∨ i ∈ r008 d.elements fp ∨ i ∈ r009 d.elements fp
      ∨ i ∈ r010 d.elements fp := by
  rw [validateAllRules, if_neg h] at hi
  simp only [List.mem_append] at hi
  tauto

/-! ## Document-order lemmas -/

/-- The issues' element ids are an order-preserving selection from the
document's element ids. -/
def docOrdered (issues : List QualityIssue) (els : List Element) : Prop :=
  (issues.map QualityIssue.element_id).Sublist (els.map (fun e => some e.id))

/-- Every issue of the list carries the given rule id. -/
def allRuleId (issues : List QualityIssue) (rid : String) : Prop :=
  ∀ i ∈ issues, i.rule_id = rid

theorem docOrdered_filterMap (f : Element → Option QualityIssue)
    (h : ∀ e i, f e = some i → i.element_id = some e.id) (els : List Element) :
    docOrdered (els.filterMap f) els := by
  induction els with
  | nil => simp [docOrdered]
  | cons e rest ih =>
    cases hf : f e with
    | none =>
      rw [docOrdered, List.filterMap_cons, hf, List.map_cons]
      exact List.Sublist.cons _ ih
    | some i =>
      rw [docOrdered, List.filterMap_cons, hf, List.map_cons, List.map_cons, h e i hf]
      exact ih.cons₂ _

theorem r001_docOrdered {els : List Element} {fp : String} :
    docOrdered (r001 els fp) els := by
  apply docOrdered_filterMap
  intro e i he
  unfold r001Issue at he
  split at he
  · simp only [Option.some.injEq] at he; subst he; rfl
  · cases he

theorem r003_docOrdered {els : List Element} {fp : String} :
    docOrdered (r003 els fp) els := by
  apply docOrdered_filterMap
  intro e i he
  unfold r003Issue at he
  dsimp only at he
  split at he
  · cases he
  · split at he
    · simp only [Option.some.injEq] at he; subst he; rfl
    · cases he

theorem r004_docOrdered {els : List Element} {fp : String} :
    docOrdered (r004 els fp) els := by
  apply docOrdered_filterMap
  intro e i he
  unfold r004Issue at he
  dsimp only at he
  split at he
  · cases he
  · split at he
    · simp only [Option.some.injEq] at he; subst he; rfl
    · cases he

theorem r005_docOrdered {els : List Element} {fp : String} :
    docOrdered (r005 els fp) els := by
  have h1 : docOrdered (r005 els fp) (els.filter (fun e => e.ctype == some "TABLE")) := by
    apply docOrdered_filterMap
    intro e i he
    unfold r005Issue at he
    split at he
    · simp only [Option.some.injEq] at he; subst he; rfl
    · cases he
  exact h1.trans ((List.filter_sublist els).map _)

theorem r007Go_docOrdered {fp : String} :
    ∀ (seen : List (String × String)) (els : List Element),
      docOrdered (r007Go fp seen els) els := by
  intro seen els
  induction els generalizing seen with
  | nil => simp [docOrdered, r007Go]
  | cons e rest ih =>
    rw [docOrdered]
    unfold r007Go
    dsimp only
    split
    · exact List.Sublist.cons _ (ih seen)
    · split
      · rw [List.map_cons]
        exact List.Sublist.cons₂ _ (ih seen)
      · exact List.Sublist.cons _ (ih _)

theorem r007_docOrdered {els : List Element} {fp : String} :
    docOrdered (r007 els fp) els := r007Go_docOrdered [] els

theorem r008_docOrdered {els : List Element} {fp : String} :
    docOrdered (r008 els fp) els := by
  apply docOrdered_filterMap
  intro e i he
  unfold r008Issue at he
  split at he
  · simp only [Option.some.injEq] at he; subst he; rfl
  · cases he

theorem r009_docOrdered {els : List Element} {fp : String} :
    docOrdered (r009 els fp) els := by
  apply docOrdered_filterMap
  intro e i he
  unfold r009Issue at he
  split at he
  · simp only [Option.some.injEq] at he; subst he; rfl
  · cases he

theorem r010_docOrdered {els : List Element} {fp : String} :
    docOrdered (r010 els fp) els := by
  apply docOrdered_filterMap
  intro e i he
  unfold r010Issue at he
  dsimp only at he
  split at he
  · cases he
  · split at he
    · simp only [Option.some.injEq] at he; subst he; rfl
    · cases he

/-! ## C3 — issue ordering -/

/-- Four elements forming two R002 pattern groups: group "abc" is
opened by element `a` (index 0) and also holds `d` (index 3); group
"def" is opened by `b` (index 1) and also holds `c` (index 2).  R002
walks the groups in first-insertion order, so the minority issue for
`d` is emitted before the one for `c` although `c` precedes `d` in the
document. -/
def c3CxDoc : Document :=
  ⟨[⟨"a", 0, "ParaText", some "PARAGRAPH", "abc", 0, [], []⟩,
    ⟨"b", 0, "ParaText", some "PARAGRAPH", "def", 0, [], []⟩,
    ⟨"c", 0, "ListText", some "LIST", "def2", 0, [], []⟩,
    ⟨"d", 0, "ListText", some "LIST", "abc4", 0, [], []⟩]⟩

/-- C3 counterexample: within rule R002 the issue for the document's
fourth element (`d`) precedes the issue for its third (`c`), so the
validator's output is not element-ordered within a rule. -/
theorem c3_doc_order_cx :
    (validateAllRules c3CxDoc "f").map (fun i => (i.rule_id, i.element_id))
      = [("R002", some "d"), ("R002", some "c")]
    ∧ c3CxDoc.elements.map Element.id = ["a", "b", "c", "d"] := ⟨rfl, rfl⟩

/-- C3 (amended): on a nonempty document the validator's output is the
concatenation of the ten rules' outputs in rule order, each block
carrying its own rule id; within a block the issues follow that rule's
emission order, which for the per-element scan rules (R001, R003, R004,
R005, R007, R008, R009, R010) is document order — R002 and R006 emit
group-major and may deviate from document order. -/
theorem c3_rule_major_order (d : Document) (fp : String) (h : d.elements ≠ []) :
    validateAllRules d fp
      = r001 d.elements fp ++ r002 d.elements fp ++ r003 d.elements fp
        ++ r004 d.elements fp ++ r005 d.elements fp ++ r006 d.elements fp
        ++ r007 d.elements fp ++ r008 d.elements fp ++ r009 d.elements fp
        ++ r010 d.elements fp
    ∧ allRuleId (r001 d.elements fp) "R001" ∧ allRuleId (r002 d.elements fp) "R002"
    ∧ allRuleId (r003 d.elements fp) "R003" ∧ allRuleId (r004 d.elements fp) "R004"
    ∧ allRuleId (r005 d.elements fp) "R005" ∧ allRuleId (r006 d.elements fp) "R006"
    ∧ allRuleId (r007 d.elements fp) "R007" ∧ allRuleId (r008 d.elements fp) "R008"
    ∧ allRuleId (r009 d.elements fp) "R009" ∧ allRuleId (r010 d.elements fp) "R010"
    ∧ docOrdered (r001 d.elements fp) d.elements ∧ docOrdered (r003 d.elements fp) d.elements
    ∧ docOrdered (r004 d.elements fp) d.elements ∧ docOrdered (r005 d.elements fp) d.elements
    ∧ docOrdered (r007 d.elements fp) d.elements ∧ docOrdered (r008 d.elements fp) d.elements
    ∧ docOrdered (r009 d.elements fp) d.elements ∧ docOrdered (r010 d.elements fp) d.elements :=
  ⟨by rw [validateAllRules, if_neg h],
   r001_ruleId, r002_ruleId, r003_ruleId, r004_ruleId, r005_ruleId,
   r006_ruleId, r007_ruleId, r008_ruleId, r009_ruleId, r010_ruleId,
   r001_docOrdered, r003_docOrdered, r004_docOrdered, r005_docOrdered,
   r007_docOrdered, r008_docOrdered, r009_docOrdered, r010_docOrdered⟩

/-- A small nonempty document for the C3 witness. -/
def c3WDoc : Document :=
  ⟨[⟨"w1", 0, "ParaText", some "PARAGRAPH", "본문 내용입니다", 0, [], []⟩]⟩

theorem c3_rule_major_order_witness :
    validateAllRules c3WDoc "f"
      = r001 c3WDoc.elements "f" ++ r002 c3WDoc.elements "f" ++ r003 c3WDoc.elements "f"
        ++ r004 c3WDoc.elements "f" ++ r005 c3WDoc.elements "f" ++ r006 c3WDoc.elements "f"
        ++ r007 c3WDoc.elements "f" ++ r008 c3WDoc.elements "f" ++ r009 c3WDoc.elements "f"
        ++ r010 c3WDoc.elements "f"
    ∧ allRuleId (r001 c3WDoc.elements "f") "R001" ∧ allRuleId (r002 c3WDoc.elements "f") "R002"
    ∧ allRuleId (r003 c3WDoc.elements "f") "R003" ∧ allRuleId (r004 c3WDoc.elements "f") "R004"
    ∧ allRuleId (r005 c3WDoc.elements "f") "R005" ∧ allRuleId (r006 c3WDoc.elements "f") "R006"
    ∧ allRuleId (r007 c3WDoc.elements "f") "R007" ∧ allRuleId (r008 c3WDoc.elements "f") "R008"
    ∧ allRuleId (r009 c3WDoc.elements "f") "R009" ∧ allRuleId (r010 c3WDoc.elements "f") "R010"
    ∧ docOrdered (r001 c3WDoc.elements "f") c3WDoc.elements
    ∧ docOrdered (r003 c3WDoc.elements "f") c3WDoc.elements
    ∧ docOrdered (r004 c3WDoc.elements "f") c3WDoc.elements
    ∧ docOrdered (r005 c3WDoc.elements "f") c3WDoc.elements
    ∧ docOrdered (r007 c3WDoc.elements "f") c3WDoc.elements
    ∧ docOrdered (r008 c3WDoc.elements "f") c3WDoc.elements
    ∧ docOrdered (r009 c3WDoc.elements "f") c3WDoc.elements
    ∧ docOrdered (r010 c3WDoc.elements "f") c3WDoc.elements :=
  c3_rule_major_order c3WDoc "f" (by decide)

/-! ## C6 — empty-document short circuit -/

/-- C6: an empty element list yields exactly the one synthetic
structural issue and nothing else; on a nonempty document no issue with
the synthetic rule id `STRUCTURE_001` is ever emitted (every issue
carries one of the ten rule ids). -/
theorem c6_empty_short_circuit :
    (∀ fp, validateAllRules ⟨[]⟩ fp
        = [createStructureIssue "STRUCTURE_001" "요소가 없습니다" fp])
    ∧ ∀ (d : Document) (fp : String), d.elements ≠ [] →
        ∀ i ∈ validateAllRules d fp, i.rule_id ≠ "STRUCTURE_001" := by
  constructor
  · intro fp; rfl
  · intro d fp h i hi
    rcases validate_mem_cases h hi with h1 | h1 | h1 | h1 | h1 | h1 | h1 | h1 | h1 | h1
    · rw [r001_ruleId i h1]; decide
    · rw [r002_ruleId i h1]; decide
    · rw [r003_ruleId i h1]; decide
    · rw [r004_ruleId i h1]; decide
    · rw [r005_ruleId i h1]; decide
    · rw [r006_ruleId i h1]; decide
    · rw [r007_ruleId i h1]; decide
    · rw [r008_ruleId i h1]; decide
    · rw [r009_ruleId i h1]; decide
    · rw [r010_ruleId i h1]; decide

/-- A nonempty document for the C6 witness. -/
def c6WDoc : Document :=
  ⟨[⟨"x1", 0, "ListText", some "LIST", "원문", 0, [], []⟩]⟩

theorem c6_empty_short_circuit_witness :
    validateAllRules ⟨[]⟩ "g"
      = [createStructureIssue "STRUCTURE_001" "요소가 없습니다" "g"]
    ∧ ∀ i ∈ validateAllRules c6WDoc "g", i.rule_id ≠ "STRUCTURE_001" :=
  ⟨c6_empty_short_circuit.1 "g", c6_empty_short_circuit.2 c6WDoc "g" (by decide)⟩

/-! ## C7 — validator purity and determinism -/

/-- C7: threading the document through the ten rule invocations leaves
it unchanged (no statement of `validate_all_rules` writes to the
document), and re-running validation on the returned document yields
the identical issue list. -/
theorem c7_validator_pure (d : Document) (fp : String) :
    (validateAllRulesSt d fp).1 = d
    ∧ (validateAllRulesSt (validateAllRulesSt d fp).1 fp).2
        = (validateAllRulesSt d fp).2 := by
  simp [validateAllRulesSt_eq]

/-! ## C1 — the legal-structure rule -/

/-- The element of the C1 counterexample: a statute heading
(`제52편 …`) labelled `ParaText`. -/
def c1CxDoc : Document :=
  ⟨[⟨"part1", 0, "ParaText", some "PARAGRAPH", "제52편 총칙과 선거", 0, [], []⟩]⟩

/-- C1 counterexample: the element's text is a statute heading and its
label is not ParaTitle, yet the active validator emits no issue at all —
its rule set has no legal-structure rule (its tenth rule checks date
patterns). -/
theorem c1_no_legal_rule_cx :
    isStatuteHeading (strip "제52편 총칙과 선거").data = true
    ∧ (c1CxDoc.elements.map Element.label) = ["ParaText"]
    ∧ validateAllRules c1CxDoc "f" = [] :=
  ⟨rfl, rfl, rfl⟩

theorem mem_backupR003Go_of (els : List Element) (fp : String) :
    ∀ (start : Nat) (rest : List Element) (k : Nat) (e : Element),
      rest.get? k = some e →
      ∀ iss ∈ backupR003IssuesAt els fp (start + k) e,
        iss ∈ backupR003Go els fp start rest := by
  intro start rest
  induction rest generalizing start with
  | nil => intro k e hk; simp at hk
  | cons a tl ih =>
    intro k e hk iss hiss
    unfold backupR003Go
    rw [List.mem_append]
    cases k with
    | zero =>
      simp only [List.get?] at hk
      injection hk with hk
      subst hk
      left
      simpa using hiss
    | succ k' =>
      right
      have h' : start + (k' + 1) = (start + 1) + k' := by omega
      rw [h'] at hiss
      exact ih (start + 1) k' e (by simpa using hk) iss hiss

theorem mem_backupR003_of {els : List Element} {fp : String} {i : Nat} {e : Element}
    (h : els.get? i = some e) :
    ∀ iss ∈ backupR003IssuesAt els fp i e, iss ∈ backupR003 els fp := by
  intro iss hiss
  have := mem_backupR003Go_of els fp 0 els i e h iss (by simpa using hiss)
  simpa [backupR003] using this

/-- C1 (amended): the legal-structure rule lives in the backup
validator (`_validate_r003_law_structure`), not in the active
validator's ten-rule set.  There, (a) every element whose stripped text
is a statute heading and whose label is not ParaTitle gets a warning
suggesting ParaTitle with target type `HEADING` in the metadata, and
(b) every element matching a numbered-subitem pattern directly after a
`제<N>조` heading whose label is not ListText gets a warning suggesting
ListText with target type `LIST`. -/
theorem c1_legal_structure_backup (els : List Element) (fp : String) :
    (∀ e ∈ els, strip e.text ≠ "" →
       isStatuteHeading (strip e.text).data = true → e.label ≠ "ParaTitle" →
       ∃ iss ∈ backupR003 els fp, iss.rule_id = "R003" ∧ iss.severity = "warning"
         ∧ iss.element_id = some e.id ∧ iss.metadata.newLabel = some "ParaTitle"
         ∧ iss.metadata.targetType = some "HEADING"
         ∧ iss.suggested_fix = some "라벨을 'ParaTitle'로 변경")
    ∧ (∀ (i : Nat) (e p : Element), els.get? (i + 1) = some e → els.get? i = some p →
         strip e.text ≠ "" → isSubitemPattern (strip e.text).data = true →
         matchJeNum '조' (strip p.text).data = true → e.label ≠ "ListText" →
         ∃ iss ∈ backupR003 els fp, iss.rule_id = "R003" ∧ iss.severity = "warning"
           ∧ iss.element_id = some e.id ∧ iss.metadata.newLabel = some "ListText"
           ∧ iss.metadata.targetType = some "LIST") := by
  constructor
  · intro e he hne hs hl
    obtain ⟨i, hi⟩ := List.get?_of_mem he
    refine ⟨setTargetType
        (createLabelIssue "R003"
          ("[법령 구조] ParaTitle 필요: '" ++ takeChars 50 (strip e.text) ++ "...'")
          e.id fp (some e.label) (some "ParaTitle") none) "HEADING",
      mem_backupR003_of hi _ ?_, rfl, rfl, rfl, rfl, rfl, rfl⟩
    unfold backupR003IssuesAt
    dsimp only
    rw [if_neg hne, if_pos ⟨hs, hl⟩]
    exact List.mem_append_left _ (List.mem_singleton.mpr rfl)
  · intro i e p he hp hne hsub hjo hl
    refine ⟨setTargetType
        (createLabelIssue "R003"
          ("[법령 구조] ListText 필요: '" ++ takeChars 50 (strip e.text) ++ "...'")
          e.id fp (some e.label) (some "ListText") none) "LIST",
      mem_backupR003_of he _ ?_, rfl, rfl, rfl, rfl, rfl⟩
    unfold backupR003IssuesAt
    dsimp only
    rw [if_neg hne]
    apply List.mem_append_right
    have hgt : i + 1 > 0 := Nat.succ_pos i
    simp only [hsub, if_true, hgt, if_pos, Nat.add_sub_cancel, hp, hjo]
    rw [if_pos ⟨trivial, hl⟩]
    exact List.mem_singleton.mpr rfl

/-- Elements for the C1 witness: a `제<N>조` heading followed by a
`(1)`-style subitem, both labelled `ParaText`. -/
def c1WEls : List Element :=
  [⟨"h1", 0, "ParaText", some "PARAGRAPH", "제3010조 선발의 기준", 0, [], []⟩,
   ⟨"i1", 0, "ParaText", some "PARAGRAPH", "(1) 선거를 통한 다음", 0, [], []⟩]

theorem c1_legal_structure_backup_witness :
    (∃ iss ∈ backupR003 c1WEls "f", iss.rule_id = "R003" ∧ iss.severity = "warning"
       ∧ iss.element_id = some "h1" ∧ iss.metadata.newLabel = some "ParaTitle"
       ∧ iss.metadata.targetType = some "HEADING"
       ∧ iss.suggested_fix = some "라벨을 'ParaTitle'로 변경")
    ∧ (∃ iss ∈ backupR003 c1WEls "f", iss.rule_id = "R003" ∧ iss.severity = "warning"
       ∧ iss.element_id = some "i1" ∧ iss.metadata.newLabel = some "ListText"
       ∧ iss.metadata.targetType = some "LIST") :=
  ⟨(c1_legal_structure_backup c1WEls "f").1
     ⟨"h1", 0, "ParaText", some "PARAGRAPH", "제3010조 선발의 기준", 0, [], []⟩
     (by decide) (by decide) (by decide) (by decide),
   (c1_legal_structure_backup c1WEls "f").2 0
     ⟨"i1", 0, "ParaText", some "PARAGRAPH", "(1) 선거를 통한 다음", 0, [], []⟩
     ⟨"h1", 0, "ParaText", some "PARAGRAPH", "제3010조 선발의 기준", 0, [], []⟩
     (by decide) (by decide) (by decide) (by decide) (by decide) (by decide)⟩

/-! ## C2 — label-change issue metadata.  Group and majority lemmas. -/

theorem r002ItemOf_shape {e : Element} {p : String} {it : R002Item}
    (h : r002ItemOf e = some (p, it)) :
    it.element = e ∧ it.element_id = e.id ∧ it.label = e.label := by
  unfold r002ItemOf at h
  dsimp only at h
  split at h
  · cases h
  · split at h
    · cases h
    · simp only [Option.some.injEq, Prod.mk.injEq] at h
      obtain ⟨-, h2⟩ := h
      subst h2
      exact ⟨rfl, rfl, rfl⟩

theorem addAssoc_prop {κ α : Type} [DecidableEq κ] (P : α → Prop)
    (gs : List (κ × List α)) (k : κ) (x : α)
    (hgs : ∀ g ∈ gs, ∀ it ∈ g.2, P it) (hx : P x) :
    ∀ g ∈ addAssoc gs k x, ∀ it ∈ g.2, P it := by
  induction gs with
  | nil =>
    intro g hg it hit
    simp only [addAssoc, List.mem_singleton] at hg
    subst hg
    simp only [List.mem_singleton] at hit
    subst hit
    exact hx
  | cons a rest ih =>
    intro g hg it hit
    unfold addAssoc at hg
    split at hg
    · rcases List.mem_cons.mp hg with h | h
      · subst h
        rcases List.mem_append.mp hit with h' | h'
        · exact hgs a (List.mem_cons_self _ _) it h'
        · simp only [List.mem_singleton] at h'
          subst h'
          exact hx
      · exact hgs g (List.mem_cons_of_mem _ h) it hit
    · rcases List.mem_cons.mp hg with h | h
      · subst h
        exact hgs a (List.mem_cons_self _ _) it hit
      · exact ih (fun g' hg' => hgs g' (List.mem_cons_of_mem _ hg')) g h it hit

theorem buildGroups_prop (P : R002Item → Prop) :
    ∀ (els : List Element) (acc : List (String × List R002Item)),
      (∀ g ∈ acc, ∀ it ∈ g.2, P it) →
      (∀ e ∈ els, ∀ p it, r002ItemOf e = some (p, it) → P it) →
      ∀ g ∈ els.foldl buildGroupsStep acc, ∀ it ∈ g.2, P it := by
  intro els
  induction els with
  | nil => intro acc hacc _ g hg; exact hacc g hg
  | cons e rest ih =>
    intro acc hacc hels g hg
    rw [List.foldl_cons] at hg
    refine ih (buildGroupsStep acc e) ?_ (fun e' he' => hels e' (List.mem_cons_of_mem _ he')) g hg
    unfold buildGroupsStep
    split
    · exact hacc
    · rename_i p it heq
      exact addAssoc_prop P acc p it hacc (hels e (List.mem_cons_self _ _) p it heq)

/-- Every item of every R002 group is backed by an element of the list,
with matching id and label. -/
theorem buildGroups_inv {els : List Element} :
    ∀ g ∈ buildGroups els, ∀ it ∈ g.2,
      it.element ∈ els ∧ it.element_id = it.element.id ∧ it.label = it.element.label := by
  intro g hg it hit
  refine buildGroups_prop
    (fun it => it.element ∈ els ∧ it.element_id = it.element.id ∧ it.label = it.element.label)
    els [] (by intro g hg; cases hg) ?_ g hg it hit
  intro e he p it' heq
  obtain ⟨h1, h2, h3⟩ := r002ItemOf_shape heq
  exact ⟨h1 ▸ he, h1 ▸ h2, h1 ▸ h3⟩

def lookupCount : List (String × Nat) → String → Nat
  | [], _ => 0
  | (k, c) :: rest, l => if k = l then c else lookupCount rest l

def countLabel (items : List R002Item) (l : String) : Nat :=
  items.countP (fun it => it.label == l)

theorem lookupCount_bump_self (cs : List (String × Nat)) (l : String) :
    lookupCount (bumpCount cs l) l = lookupCount cs l + 1 := by
  induction cs with
  | nil => simp [bumpCount, lookupCount]
  | cons a rest ih =>
    obtain ⟨k, c⟩ := a
    unfold bumpCount
    by_cases h : k = l
    · simp [h, lookupCount]
    · simp [h, lookupCount, ih]

theorem lookupCount_bump_other (cs : List (String × Nat)) {l k : String} (h : k ≠ l) :
    lookupCount (bumpCount cs l) k = lookupCount cs k := by
  induction cs with
  | nil => simp [bumpCount, lookupCount, Ne.symm h]
  | cons a rest ih =>
    obtain ⟨k', c⟩ := a
    unfold bumpCount
    by_cases h' : k' = l
    · subst h'
      simp [lookupCount, Ne.symm h]
    · simp only [if_neg h', lookupCount]
      by_cases h'' : k' = k <;> simp [h'', ih]

theorem lookupCount_labelCounts (items : List R002Item) :
    ∀ l, lookupCount (labelCounts items) l = countLabel items l := by
  suffices h : ∀ (items : List R002Item) (cs : List (String × Nat)) (l : String),
      lookupCount (items.foldl (fun cs it => bumpCount cs it.label) cs) l
        = lookupCount cs l + countLabel items l by
    intro l
    have := h items [] l
    simpa [labelCounts, lookupCount] using this
  intro items
  induction items with
  | nil => intro cs l; simp [countLabel, lookupCount]
  | cons it rest ih =>
    intro cs l
    rw [List.foldl_cons, ih]
    unfold countLabel
    rw [List.countP_cons]
    by_cases h : it.label = l
    · subst h
      rw [lookupCount_bump_self]
      simp [countLabel]
      omega
    · rw [lookupCount_bump_other cs (Ne.symm h)]
      simp [countLabel, h]

theorem lookupCount_pos_mem {cs : List (String × Nat)} {l : String}
    (h : lookupCount cs l ≠ 0) : (l, lookupCount cs l) ∈ cs := by
  induction cs with
  | nil => simp [lookupCount] at h
  | cons a rest ih =>
    obtain ⟨k, c⟩ := a
    unfold lookupCount at h ⊢
    by_cases h' : k = l
    · subst h'
      simp only [if_pos rfl] at h ⊢
      exact List.mem_cons_self _ _
    · simp only [if_neg h'] at h ⊢
      exact List.mem_cons_of_mem _ (ih h)

theorem maxCountEntry_pick_mem :
    ∀ (rest : List (String × Nat)) (e : String × Nat),
      rest.foldl (fun best kc => if kc.2 > best.2 then kc else best) e ∈ e :: rest := by
  intro rest
  induction rest with
  | nil => intro e; simp
  | cons a tl ih =>
    intro e
    rw [List.foldl_cons]
    have h := ih (if a.2 > e.2 then a else e)
    rcases List.mem_cons.mp h with h' | h'
    · rw [h']
      by_cases hc : a.2 > e.2 <;> simp [hc]
    · simp [List.mem_cons_of_mem, h']

theorem maxCountEntry_pick_ge :
    ∀ (rest : List (String × Nat)) (e : String × Nat), ∀ kc ∈ e :: rest,
      kc.2 ≤ (rest.foldl (fun best kc => if kc.2 > best.2 then kc else best) e).2 := by
  intro rest
  induction rest with
  | nil =>
    intro e kc hkc
    simp only [List.mem_singleton] at hkc
    subst hkc
    simp
  | cons a tl ih =>
    intro e kc hkc
    rw [List.foldl_cons]
    have hhead : ∀ x ∈ (if a.2 > e.2 then a else e) :: tl,
        x.2 ≤ (tl.foldl (fun best kc => if kc.2 > best.2 then kc else best)
          (if a.2 > e.2 then a else e)).2 := ih _
    rcases List.mem_cons.mp hkc with h | h
    · subst h
      have : kc.2 ≤ (if a.2 > kc.2 then a else kc).2 := by
        by_cases hc : a.2 > kc.2 <;> simp [hc] <;> omega
      exact le_trans this (hhead _ (List.mem_cons_self _ _))
    · rcases List.mem_cons.mp h with h' | h'
      · subst h'
        have : kc.2 ≤ (if kc.2 > e.2 then kc else e).2 := by
          by_cases hc : kc.2 > e.2 <;> simp [hc] <;> omega
        exact le_trans this (hhead _ (List.mem_cons_self _ _))
      · exact hhead kc (List.mem_cons_of_mem _ h')

theorem maxCountEntry_mem {cs : List (String × Nat)} (h : cs ≠ []) :
    maxCountEntry cs ∈ cs := by
  match cs with
  | [] => exact absurd rfl h
  | e :: rest => exact maxCountEntry_pick_mem rest e

theorem maxCountEntry_ge {cs : List (String × Nat)} :
    ∀ kc ∈ cs, kc.2 ≤ (maxCountEntry cs).2 := by
  match cs with
  | [] => intro kc hkc; cases hkc
  | e :: rest => exact maxCountEntry_pick_ge rest e

theorem bumpCount_keys (cs : List (String × Nat)) (l : String) :
    (bumpCount cs l).map Prod.fst
      = if l ∈ cs.map Prod.fst then cs.map Prod.fst else cs.map Prod.fst ++ [l] := by
  induction cs with
  | nil => simp [bumpCount]
  | cons a rest ih =>
    obtain ⟨k, c⟩ := a
    unfold bumpCount
    by_cases h : k = l
    · subst h
      simp
    · simp only [if_neg h, List.map_cons, ih]
      by_cases h' : l ∈ rest.map Prod.fst
      · simp [h', Ne.symm h]
      · simp [h', Ne.symm h]

theorem bumpCount_nodup {cs : List (String × Nat)} (h : (cs.map Prod.fst).Nodup)
    (l : String) : ((bumpCount cs l).map Prod.fst).Nodup := by
  rw [bumpCount_keys]
  by_cases h' : l ∈ cs.map Prod.fst
  · simpa [h'] using h
  · simp only [if_neg h']
    simp [List.nodup_append, h, h']

theorem labelCounts_nodup (items : List R002Item) :
    ((labelCounts items).map Prod.fst).Nodup := by
  suffices h : ∀ (items : List R002Item) (cs : List (String × Nat)),
      (cs.map Prod.fst).Nodup →
      ((items.foldl (fun cs it => bumpCount cs it.label) cs).map Prod.fst).Nodup by
    exact h items [] (by simp)
  intro items
  induction items with
  | nil => intro cs h; simpa using h
  | cons it rest ih =>
    intro cs h
    rw [List.foldl_cons]
    exact ih _ (bumpCount_nodup h it.label)

theorem lookupCount_of_mem_nodup {cs : List (String × Nat)} {k : String} {c : Nat}
    (hnd : (cs.map Prod.fst).Nodup) (h : (k, c) ∈ cs) : lookupCount cs k = c := by
  induction cs with
  | nil => cases h
  | cons a rest ih =>
    obtain ⟨k', c'⟩ := a
    rcases List.mem_cons.mp h with h' | h'
    · injection h' with h1 h2
      subst h1; subst h2
      simp [lookupCount]
    · rw [List.map_cons, List.nodup_cons] at hnd
      have hk : k' ≠ k := by
        intro he
        subst he
        exact hnd.1 (List.mem_map.mpr ⟨(k', c), h', rfl⟩)
      simp only [lookupCount, if_neg hk]
      exact ih hnd.2 h'

/-- The label R002 recommends for a group is a (first-seen) majority:
no label occurs in the group more often. -/
theorem recommended_majority (items : List R002Item) :
    ∀ l, countLabel items l ≤ countLabel items (recommendedLabel items) := by
  intro l
  rw [← lookupCount_labelCounts, ← lookupCount_labelCounts]
  by_cases h0 : lookupCount (labelCounts items) l = 0
  · rw [h0]
    exact Nat.zero_le _
  · have hmem := lookupCount_pos_mem h0
    have hle := maxCountEntry_ge _ hmem
    have hne : labelCounts items ≠ [] := by
      intro he
      rw [he] at hmem
      cases hmem
    have hmax := maxCountEntry_mem hne
    have heq : lookupCount (labelCounts items) (maxCountEntry (labelCounts items)).1
        = (maxCountEntry (labelCounts items)).2 := by
      exact lookupCount_of_mem_nodup (labelCounts_nodup items)
        (by rw [← Prod.mk.eta (p := maxCountEntry (labelCounts items))] at hmax; exact hmax)
    rw [recommendedLabel, heq]
    exact hle

/-- C2: every label-change issue (R002, R003, R004, R009) carries the
offending element's current label as `old_label` and the suggested
label as `new_label` in its metadata, with `suggested_fix` naming the
suggested label; an R002 issue's suggested label is moreover a majority
label of its normalized-pattern group. -/
theorem c2_label_issue_metadata (d : Document) (fp : String) (iss : QualityIssue)
    (hi : iss ∈ validateAllRules d fp)
    (hr : iss.rule_id = "R002" ∨ iss.rule_id = "R003" ∨ iss.rule_id = "R004"
      ∨ iss.rule_id = "R009") :
    (∃ e ∈ d.elements, iss.element_id = some e.id
      ∧ iss.metadata.oldLabel = some e.label
      ∧ ∃ nl, iss.metadata.newLabel = some nl
          ∧ iss.suggested_fix = some ("라벨을 '" ++ nl ++ "'로 변경"))
    ∧ (iss.rule_id = "R002" →
        ∃ items, ∃ it ∈ items, (∃ p, (p, items) ∈ buildGroups d.elements)
          ∧ iss.element_id = some it.element_id
          ∧ iss.metadata.oldLabel = some it.label
          ∧ iss.metadata.newLabel = some (recommendedLabel items)
          ∧ ∀ l, countLabel items l ≤ countLabel items (recommendedLabel items)) := by
  by_cases hemp : d.elements = []
  · rw [validateAllRules, if_pos hemp, List.mem_singleton] at hi
    subst hi
    exact absurd hr
      (by decide :
        ¬("STRUCTURE_001" = "R002" ∨ "STRUCTURE_001" = "R003"
          ∨ "STRUCTURE_001" = "R004" ∨ "STRUCTURE_001" = "R009"))
  · rcases validate_mem_cases hemp hi with h1 | h1 | h1 | h1 | h1 | h1 | h1 | h1 | h1 | h1
    · have hid := r001_ruleId iss h1
      rw [hid] at hr
      exact absurd hr (by decide)
    · obtain ⟨g, hg, hlen, hdist, it, hit, hmin, heq⟩ := r002_shape iss h1
      obtain ⟨helem, hid, hlab⟩ := buildGroups_inv g hg it hit
      subst heq
      constructor
      · exact ⟨it.element, helem, by rw [hid]; rfl, by rw [hlab]; rfl,
          recommendedLabel g.2, rfl, rfl⟩
      · intro _
        exact ⟨g.2, it, hit, ⟨g.1, by rwa [Prod.mk.eta]⟩, rfl, rfl, rfl,
          recommended_majority g.2⟩
    · obtain ⟨e, he, heq⟩ := r003_shape iss h1
      subst heq
      exact ⟨⟨e, he, rfl, rfl, "ParaTitle", rfl, rfl⟩,
        fun h2 => absurd (show ("R003" : String) = "R002" from h2) (by decide)⟩
    · obtain ⟨e, he, heq⟩ := r004_shape iss h1
      subst heq
      exact ⟨⟨e, he, rfl, rfl, "Date", rfl, rfl⟩,
        fun h2 => absurd (show ("R004" : String) = "R002" from h2) (by decide)⟩
    · have hid := r005_ruleId iss h1
      rw [hid] at hr
      exact absurd hr (by decide)
    · have hid := r006_ruleId iss h1
      rw [hid] at hr
      exact absurd hr (by decide)
    · have hid := r007_ruleId iss h1
      rw [hid] at hr
      exact absurd hr (by decide)
    · have hid := r008_ruleId iss h1
      rw [hid] at hr
      exact absurd hr (by decide)
    · obtain ⟨e, he, heq⟩ := r009_shape iss h1
      subst heq
      exact ⟨⟨e, he, rfl, rfl, "ParaText", rfl, rfl⟩,
        fun h2 => absurd (show ("R009" : String) = "R002" from h2) (by decide)⟩
    · have hid := r010_ruleId iss h1
      rw [hid] at hr
      exact absurd hr (by decide)

/-- Witness document for C2: one normalized-pattern group `alpha` with
majority label `ParaText` and minority element `e3`. -/
def c2WDoc : Document :=
  ⟨[⟨"e1", 0, "ParaText", some "PARAGRAPH", "alpha", 0, [], []⟩,
    ⟨"e2", 0, "ParaText", some "PARAGRAPH", "alpha2", 0, [], []⟩,
    ⟨"e3", 0, "ListText", some "LIST", "alpha3", 0, [], []⟩]⟩

def c2WIssue : QualityIssue :=
  createLabelIssueSpec "R002" "e3" "ListText" "ParaText" "f" 0

theorem c2_label_issue_metadata_witness :
    (∃ e ∈ c2WDoc.elements, c2WIssue.element_id = some e.id
      ∧ c2WIssue.metadata.oldLabel = some e.label
      ∧ ∃ nl, c2WIssue.metadata.newLabel = some nl
          ∧ c2WIssue.suggested_fix = some ("라벨을 '" ++ nl ++ "'로 변경"))
    ∧ (c2WIssue.rule_id = "R002" →
        ∃ items, ∃ it ∈ items, (∃ p, (p, items) ∈ buildGroups c2WDoc.elements)
          ∧ c2WIssue.element_id = some it.element_id
          ∧ c2WIssue.metadata.oldLabel = some it.label
          ∧ c2WIssue.metadata.newLabel = some (recommendedLabel items)
          ∧ ∀ l, countLabel items l ≤ countLabel items (recommendedLabel items)) :=
  c2_label_issue_metadata c2WDoc "f" c2WIssue (by decide) (Or.inl rfl)

/-! ## C10 — date rules R004 and R010 duplicate each other -/

/-- The filter "date issue for element id `eid`" used to state C10. -/
def dateIssueFor (eid : String) (i : QualityIssue) : Bool :=
  decide (i.element_id = some eid ∧ (i.rule_id = "R004" ∨ i.rule_id = "R010"))

theorem isDatePattern_eq (t : List Char) : isDatePattern004 t = isDatePattern010 t := by
  unfold isDatePattern004 isDatePattern010
  cases matchDateKorean t <;> cases matchDateDots t <;> cases matchDateDashes t <;>
    cases matchDateJakseong t <;> rfl

theorem filter_dateIssue_nil_of_ruleId {issues : List QualityIssue} {rid : String}
    (hall : ∀ i ∈ issues, i.rule_id = rid) (h4 : rid ≠ "R004") (h10 : rid ≠ "R010")
    (eid : String) : issues.filter (dateIssueFor eid) = [] := by
  rw [List.filter_eq_nil_iff]
  intro i hi
  have hr := hall i hi
  simp [dateIssueFor, hr, h4, h10]

theorem r004_filter_nil {els : List Element} {fp eid : String}
    (h : ∀ e' ∈ els, e'.id ≠ eid) : (r004 els fp).filter (dateIssueFor eid) = [] := by
  rw [List.filter_eq_nil_iff]
  intro i hi
  obtain ⟨e', he', heq⟩ := r004_shape i hi
  subst heq
  simp [dateIssueFor, createLabelIssueSpec, h e' he']

theorem r010_filter_nil {els : List Element} {fp eid : String}
    (h : ∀ e' ∈ els, e'.id ≠ eid) : (r010 els fp).filter (dateIssueFor eid) = [] := by
  rw [List.filter_eq_nil_iff]
  intro i hi
  obtain ⟨e', he', heq⟩ := r010_shape i hi
  subst heq
  simp [dateIssueFor, createLabelIssueSpec, h e' he']

theorem r004_filter_unique {fp : String} :
    ∀ {els : List Element} {e : Element}, e ∈ els → (els.map Element.id).Nodup →
      stripL e.text.data ≠ [] → isDatePattern004 (stripL e.text.data) = true →
      e.label ≠ "Date" →
      (r004 els fp).filter (dateIssueFor e.id)
        = [createLabelIssueSpec "R004" e.id e.label "Date" fp e.pageIndex] := by
  intro els
  induction els with
  | nil => intro e he; cases he
  | cons a rest ih =>
    intro e he hnd hne ht hl
    rw [List.map_cons, List.nodup_cons] at hnd
    rcases List.mem_cons.mp he with h | h
    · subst h
      have hfa : r004Issue fp e
          = some (createLabelIssueSpec "R004" e.id e.label "Date" fp e.pageIndex) := by
        unfold r004Issue
        dsimp only
        rw [if_neg hne, if_pos ⟨ht, hl⟩]
      rw [r004, List.filterMap_cons, hfa]
      have hrest : (r004 rest fp).filter (dateIssueFor e.id) = [] := by
        apply r004_filter_nil
        intro e' he' heq
        exact hnd.1 (heq ▸ List.mem_map.mpr ⟨e', he', rfl⟩)
      rw [List.filter_cons]
      have hpred : dateIssueFor e.id
          (createLabelIssueSpec "R004" e.id e.label "Date" fp e.pageIndex) = true := by
        simp [dateIssueFor, createLabelIssueSpec]
      rw [if_pos hpred]
      rw [r004] at hrest
      rw [hrest]
    · have hne' : e.id ∈ rest.map Element.id := List.mem_map.mpr ⟨e, h, rfl⟩
      have haid : a.id ≠ e.id := fun heq => hnd.1 (heq ▸ hne')
      rw [r004, List.filterMap_cons]
      cases hfa : r004Issue fp a with
      | none => exact ih h hnd.2 hne ht hl
      | some iss =>
        have hissId : iss.element_id = some a.id := by
          unfold r004Issue at hfa
          dsimp only at hfa
          split at hfa
          · cases hfa
          · split at hfa
            · simp only [Option.some.injEq] at hfa; subst hfa; rfl
            · cases hfa
        rw [List.filter_cons]
        have hpred : dateIssueFor e.id iss = false := by
          simp [dateIssueFor, hissId, haid]
        rw [if_neg (by simp [hpred])]
        exact ih h hnd.2 hne ht hl

theorem r010_filter_unique {fp : String} :
    ∀ {els : List Element} {e : Element}, e ∈ els → (els.map Element.id).Nodup →
      stripL e.text.data ≠ [] → isDatePattern010 (stripL e.text.data) = true →
      e.label ≠ "Date" →
      (r010 els fp).filter (dateIssueFor e.id)
        = [createLabelIssueSpec "R010" e.id e.label "Date" fp e.pageIndex] := by
  intro els
  induction els with
  | nil => intro e he; cases he
  | cons a rest ih =>
    intro e he hnd hne ht hl
    rw [List.map_cons, List.nodup_cons] at hnd
    rcases List.mem_cons.mp he with h | h
    · subst h
      have hfa : r010Issue fp e
          = some (createLabelIssueSpec "R010" e.id e.label "Date" fp e.pageIndex) := by
        unfold r010Issue
        dsimp only
        rw [if_neg hne, if_pos ⟨ht, hl⟩]
      rw [r010, List.filterMap_cons, hfa]
      have hrest : (r010 rest fp).filter (dateIssueFor e.id) = [] := by
        apply r010_filter_nil
        intro e' he' heq
        exact hnd.1 (heq ▸ List.mem_map.mpr ⟨e', he', rfl⟩)
      rw [List.filter_cons]
      have hpred : dateIssueFor e.id
          (createLabelIssueSpec "R010" e.id e.label "Date" fp e.pageIndex) = true := by
        simp [dateIssueFor, createLabelIssueSpec]
      rw [if_pos hpred]
      rw [r010] at hrest
      rw [hrest]
    · have hne' : e.id ∈ rest.map Element.id := List.mem_map.mpr ⟨e, h, rfl⟩
      have haid : a.id ≠ e.id := fun heq => hnd.1 (heq ▸ hne')
      rw [r010, List.filterMap_cons]
      cases hfa : r010Issue fp a with
      | none => exact ih h hnd.2 hne ht hl
      | some iss =>
        have hissId : iss.element_id = some a.id := by
          unfold r010Issue at hfa
          dsimp only at hfa
          split at hfa
          · cases hfa
          · split at hfa
            · simp only [Option.some.injEq] at hfa; subst hfa; rfl
            · cases hfa
        rw [List.filter_cons]
        have hpred : dateIssueFor e.id iss = false := by
          simp [dateIssueFor, hissId, haid]
        rw [if_neg (by simp [hpred])]
        exact ih h hnd.2 hne ht hl

/-- C10: R004 and R010 test the same four date patterns, so an element
with unique id whose stripped text matches a date pattern and whose
label is not `Date` receives exactly two date-label issues from the
validator — one R004 and one R010, in that order, both suggesting the
label `Date`. -/
theorem c10_r004_r010_duplicate (d : Document) (fp : String) (e : Element)
    (he : e ∈ d.elements) (hnd : (d.elements.map Element.id).Nodup)
    (hne : stripL e.text.data ≠ []) (ht : isDatePattern004 (stripL e.text.data) = true)
    (hl : e.label ≠ "Date") :
    (∀ t, isDatePattern004 t = isDatePattern010 t)
    ∧ (validateAllRules d fp).filter (dateIssueFor e.id)
        = [createLabelIssueSpec "R004" e.id e.label "Date" fp e.pageIndex,
           createLabelIssueSpec "R010" e.id e.label "Date" fp e.pageIndex]
    ∧ (createLabelIssueSpec "R004" e.id e.label "Date" fp e.pageIndex).metadata.newLabel
        = some "Date"
    ∧ (createLabelIssueSpec "R010" e.id e.label "Date" fp e.pageIndex).metadata.newLabel
        = some "Date" := by
  have hemp : d.elements ≠ [] := by
    intro h
    rw [h] at he
    cases he
  refine ⟨isDatePattern_eq, ?_, rfl, rfl⟩
  rw [validateAllRules, if_neg hemp]
  repeat rw [List.filter_append]
  rw [filter_dateIssue_nil_of_ruleId r001_ruleId (by decide) (by decide),
      filter_dateIssue_nil_of_ruleId r002_ruleId (by decide) (by decide),
      filter_dateIssue_nil_of_ruleId r003_ruleId (by decide) (by decide),
      filter_dateIssue_nil_of_ruleId r005_ruleId (by decide) (by decide),
      filter_dateIssue_nil_of_ruleId r006_ruleId (by decide) (by decide),
      filter_dateIssue_nil_of_ruleId r007_ruleId (by decide) (by decide),
      filter_dateIssue_nil_of_ruleId r008_ruleId (by decide) (by decide),
      filter_dateIssue_nil_of_ruleId r009_ruleId (by decide) (by decide),
      r004_filter_unique he hnd hne ht hl,
      r010_filter_unique he hnd hne (by rw [← isDatePattern_eq]; exact ht) hl]
  simp

/-- Witness document for C10: a dash-format date labelled `ParaText`. -/
def c10WDoc : Document :=
  ⟨[⟨"d1", 2, "ParaText", some "PARAGRAPH", "2021-02-03", 0, [], []⟩]⟩

def c10WElem : Element := ⟨"d1", 2, "ParaText", some "PARAGRAPH", "2021-02-03", 0, [], []⟩

theorem c10_r004_r010_duplicate_witness :
    (∀ t, isDatePattern004 t = isDatePattern010 t)
    ∧ (validateAllRules c10WDoc "f").filter (dateIssueFor c10WElem.id)
        = [createLabelIssueSpec "R004" c10WElem.id c10WElem.label "Date" "f" c10WElem.pageIndex,
           createLabelIssueSpec "R010" c10WElem.id c10WElem.label "Date" "f" c10WElem.pageIndex]
    ∧ (createLabelIssueSpec "R004" c10WElem.id c10WElem.label "Date" "f"
        c10WElem.pageIndex).metadata.newLabel = some "Date"
    ∧ (createLabelIssueSpec "R010" c10WElem.id c10WElem.label "Date" "f"
        c10WElem.pageIndex).metadata.newLabel = some "Date" :=
  c10_r004_r010_duplicate c10WDoc "f" c10WElem (by decide) (by decide) (by decide)
    (by decide) (by decide)

/-! ## C4 — fixer idempotence -/

/-- The trigger of the label pass (`_determine_correct_label`). -/
def labelFixCond (e : Element) : Prop :=
  (strip e.text = "원문" ∨ strip e.text = "번역문") ∧ e.label = "ListText"

instance (e : Element) : Decidable (labelFixCond e) := by
  unfold labelFixCond; infer_instance

theorem fixLabelTypesElem_of_neg {e : Element} (h : ¬labelFixCond e) :
    fixLabelTypesElem e = (e, none) := by
  unfold fixLabelTypesElem
  dsimp only
  split
  · rename_i hc
    exact absurd hc h
  · rfl

theorem fixLabelTypesElem_fst_keeps (e : Element) :
    ((fixLabelTypesElem e).1).text = e.text ∧ ((fixLabelTypesElem e).1).tags = e.tags := by
  unfold fixLabelTypesElem
  dsimp only
  split
  · exact ⟨rfl, rfl⟩
  · exact ⟨rfl, rfl⟩

theorem removeForbiddenTagsElem_fst_keeps (e : Element) :
    ((removeForbiddenTagsElem e).1).text = e.text
      ∧ ((removeForbiddenTagsElem e).1).label = e.label
      ∧ ((removeForbiddenTagsElem e).1).ctype = e.ctype := by
  unfold removeForbiddenTagsElem
  dsimp only
  split
  · exact ⟨rfl, rfl, rfl⟩
  · exact ⟨rfl, rfl, rfl⟩

theorem labelFixCond_after (x : Element) :
    ¬labelFixCond ((removeForbiddenTagsElem ((fixLabelTypesElem x).1)).1) := by
  obtain ⟨ht, hl, -⟩ := removeForbiddenTagsElem_fst_keeps ((fixLabelTypesElem x).1)
  intro hc
  unfold labelFixCond at hc
  rw [ht, hl] at hc
  by_cases hx : labelFixCond x
  · have hlab : (fixLabelTypesElem x).1.label = "ParaText" := by
      unfold fixLabelTypesElem
      dsimp only
      rw [if_pos (show (strip x.text = "원문" ∨ strip x.text = "번역문")
        ∧ x.label = "ListText" from hx)]
    rw [hlab] at hc
    exact absurd hc.2 (by decide)
  · rw [fixLabelTypesElem_of_neg hx] at hc
    exact hx hc

theorem removeForbiddenTagsElem_second (e : Element) :
    removeForbiddenTagsElem ((removeForbiddenTagsElem e).1)
      = ((removeForbiddenTagsElem e).1, none) := by
  have hfix : ∀ (l : List String),
      (l.filter (fun t => t ∉ forbiddenLabels)).filter (fun t => t ∉ forbiddenLabels)
        = l.filter (fun t => t ∉ forbiddenLabels) :=
    fun l => List.filter_eq_self.mpr (fun a ha => (List.mem_filter.mp ha).2)
  by_cases h : (e.tags.filter (fun t => t ∉ forbiddenLabels)).length ≠ e.tags.length
  · have h1 : (removeForbiddenTagsElem e).1
        = { e with tags := e.tags.filter (fun t => t ∉ forbiddenLabels) } := by
      unfold removeForbiddenTagsElem
      dsimp only
      rw [if_pos h]
    rw [h1]
    unfold removeForbiddenTagsElem
    dsimp only
    rw [if_neg (fun hc => hc (by rw [hfix]))]
  · have h1 : removeForbiddenTagsElem e = (e, none) := by
      unfold removeForbiddenTagsElem
      dsimp only
      rw [if_neg h]
    rw [h1]
    exact h1

theorem fixLabelTypes_fst (els : List Element) :
    (fixLabelTypes els).1 = els.map (fun e => (fixLabelTypesElem e).1) := by
  induction els with
  | nil => rfl
  | cons e rest ih => simp [fixLabelTypes, ih]

theorem removeForbiddenTags_fst (els : List Element) :
    (removeForbiddenTags els).1 = els.map (fun e => (removeForbiddenTagsElem e).1) := by
  induction els with
  | nil => rfl
  | cons e rest ih => simp [removeForbiddenTags, ih]

theorem fixLabelTypes_of_none {els : List Element}
    (h : ∀ e ∈ els, fixLabelTypesElem e = (e, none)) :
    fixLabelTypes els = (els, []) := by
  induction els with
  | nil => rfl
  | cons e rest ih =>
    have he := h e (List.mem_cons_self _ _)
    have hr := ih (fun e' he' => h e' (List.mem_cons_of_mem _ he'))
    simp [fixLabelTypes, he, hr]

theorem removeForbiddenTags_of_none {els : List Element}
    (h : ∀ e ∈ els, removeForbiddenTagsElem e = (e, none)) :
    removeForbiddenTags els = (els, []) := by
  induction els with
  | nil => rfl
  | cons e rest ih =>
    have he := h e (List.mem_cons_self _ _)
    have hr := ih (fun e' he' => h e' (List.mem_cons_of_mem _ he'))
    simp [removeForbiddenTags, he, hr]

theorem fixUnnecessaryElements_of_none {els : List Element}
    (h : ∀ e ∈ els, removeCond e = false) :
    fixUnnecessaryElements els = (els, []) := by
  unfold fixUnnecessaryElements
  have h1 : els.filter (fun e => !removeCond e) = els :=
    List.filter_eq_self.mpr (fun e he => by simp [h e he])
  have h2 : els.filter removeCond = [] :=
    List.filter_eq_nil_iff.mpr (fun e he => by simp [h e he])
  rw [h1, h2]
  rfl

theorem fixTableStructure_snd (els : List Element) :
    (fixTableStructure els).2 = [] := by
  unfold fixTableStructure
  dsimp only
  rw [List.filterMap_eq_nil_iff]
  intro t _
  rw [if_neg]
  intro hc
  exact hc.2.2 rfl

/-- C4: running the full fix pipeline a second time changes nothing —
the element list is untouched and every pass of the second run reports
zero fixes. -/
theorem c4_fix_idempotent (els : List Element) :
    runAllRuleFixes (runAllRuleFixes els).1 = ((runAllRuleFixes els).1, ⟨[], [], [], [], []⟩) := by
  have hfst : (runAllRuleFixes els).1
      = ((els.filter (fun e => !removeCond e)).map (fun e => (fixLabelTypesElem e).1)).map
          (fun e => (removeForbiddenTagsElem e).1) := by
    show (removeForbiddenTags (fixLabelTypes (els.filter (fun e => !removeCond e))).1).1 = _
    rw [removeForbiddenTags_fst, fixLabelTypes_fst]
  have hmem : ∀ y ∈ (runAllRuleFixes els).1,
      ∃ x, x ∈ els.filter (fun e => !removeCond e)
        ∧ y = (removeForbiddenTagsElem ((fixLabelTypesElem x).1)).1 := by
    intro y hy
    rw [hfst] at hy
    obtain ⟨z, hz, hzy⟩ := List.mem_map.mp hy
    obtain ⟨x, hx, hxz⟩ := List.mem_map.mp hz
    exact ⟨x, hx, by rw [← hzy, ← hxz]⟩
  have hprune : ∀ y ∈ (runAllRuleFixes els).1, removeCond y = false := by
    intro y hy
    obtain ⟨x, hx, hyx⟩ := hmem y hy
    have htext : y.text = x.text := by
      rw [hyx, (removeForbiddenTagsElem_fst_keeps _).1, (fixLabelTypesElem_fst_keeps _).1]
    have hx' : removeCond x = false := by
      have := (List.mem_filter.mp hx).2
      simpa using this
    rw [removeCond] at hx' ⊢
    rw [htext]
    exact hx'
  have hlabels : ∀ y ∈ (runAllRuleFixes els).1, fixLabelTypesElem y = (y, none) := by
    intro y hy
    obtain ⟨x, hx, hyx⟩ := hmem y hy
    rw [hyx]
    exact fixLabelTypesElem_of_neg (labelFixCond_after x)
  have htags : ∀ y ∈ (runAllRuleFixes els).1, removeForbiddenTagsElem y = (y, none) := by
    intro y hy
    obtain ⟨x, hx, hyx⟩ := hmem y hy
    rw [hyx]
    exact removeForbiddenTagsElem_second _
  have h1 : fixUnnecessaryElements (runAllRuleFixes els).1 = ((runAllRuleFixes els).1, []) :=
    fixUnnecessaryElements_of_none hprune
  have h2 : fixLabelTypes (runAllRuleFixes els).1 = ((runAllRuleFixes els).1, []) :=
    fixLabelTypes_of_none hlabels
  have h3 : fixTableStructure (runAllRuleFixes els).1 = ((runAllRuleFixes els).1, []) := by
    rw [show fixTableStructure (runAllRuleFixes els).1
        = ((runAllRuleFixes els).1, (fixTableStructure (runAllRuleFixes els).1).2) from rfl,
      fixTableStructure_snd]
  have h4 : removeForbiddenTags (runAllRuleFixes els).1 = ((runAllRuleFixes els).1, []) :=
    removeForbiddenTags_of_none htags
  generalize hL : (runAllRuleFixes els).1 = L at h1 h2 h3 h4 ⊢
  unfold runAllRuleFixes
  rw [h1]
  dsimp only
  rw [h2]
  dsimp only
  rw [h3]
  dsimp only
  rw [h4]

/-! ## C5 — label/type synchronization in the fixer -/

/-- The C5 counterexample element: `원문` labelled `ListText`, whose
`category` dict has no `type` key. -/
def c5CxElem : Element := ⟨"x", 0, "ListText", none, "원문", 0, [], []⟩

/-- C5 counterexample: the fixer relabels the element to `ParaText`
(one fix recorded) but, because the element's category has no `type`
key, leaves the type absent — the resulting (label, type) pair is
`("ParaText", none)`, not the table's `("ParaText", PARAGRAPH)`. -/
theorem c5_label_type_sync_cx :
    c5CxElem.label = "ListText"
    ∧ (fixLabelTypes [c5CxElem]).1.map (fun e => (e.label, e.ctype))
        = [("ParaText", none)]
    ∧ (fixLabelTypes [c5CxElem]).2.length = 1 := ⟨rfl, rfl, rfl⟩

/-- C5 (amended): the only relabeling the fixer performs is
`ListText → ParaText` in the label pass; for every relabeled element
whose category has a `type` entry the type is synchronized to
`PARAGRAPH` (the table's pair for ParaText), while an element without a
`type` entry is relabeled with its type left absent.  The other passes
never change a label or type (pruning only selects existing elements,
the table pass returns the elements unchanged, the tag pass only edits
`tags`). -/
theorem c5_label_type_sync :
    (∀ (els : List Element) (i : Nat) (e e' : Element),
       els.get? i = some e → ((fixLabelTypes els).1).get? i = some e' →
       e'.label ≠ e.label →
       e.label = "ListText" ∧ e'.label = "ParaText"
         ∧ (e.ctype.isSome → e'.ctype = some "PARAGRAPH")
         ∧ (e.ctype = none → e'.ctype = none))
    ∧ (∀ els, (fixTableStructure els).1 = els)
    ∧ (∀ (els : List Element) (i : Nat) (e e' : Element),
       els.get? i = some e → ((removeForbiddenTags els).1).get? i = some e' →
       e'.label = e.label ∧ e'.ctype = e.ctype)
    ∧ (∀ (els : List Element) (e : Element), e ∈ (fixUnnecessaryElements els).1 → e ∈ els) := by
  refine ⟨?_, fun _ => rfl, ?_, ?_⟩
  · intro els i e e' he he' hch
    rw [fixLabelTypes_fst, List.get?_map, he] at he'
    simp only [Option.map_some', Option.some.injEq] at he'
    by_cases hx : labelFixCond e
    · have hfe : (fixLabelTypesElem e).1
          = { e with
              label := "ParaText"
              ctype := if e.ctype.isSome then some "PARAGRAPH" else e.ctype } := by
        unfold fixLabelTypesElem
        dsimp only
        rw [if_pos (show (strip e.text = "원문" ∨ strip e.text = "번역문")
          ∧ e.label = "ListText" from hx)]
      subst he'
      rw [hfe]
      refine ⟨hx.2, rfl, ?_, ?_⟩
      · intro hs
        simp [hs]
      · intro hn
        simp [hn]
    · rw [fixLabelTypesElem_of_neg hx] at he'
      subst he'
      exact absurd rfl hch
  · intro els i e e' he he'
    rw [removeForbiddenTags_fst, List.get?_map, he] at he'
    simp only [Option.map_some', Option.some.injEq] at he'
    subst he'
    obtain ⟨-, h2, h3⟩ := removeForbiddenTagsElem_fst_keeps e
    exact ⟨h2, h3⟩
  · intro els e he
    exact List.mem_of_mem_filter he

def c5WElem : Element := ⟨"w", 0, "ListText", some "LIST", "번역문", 0, [], []⟩

theorem c5_label_type_sync_witness :
    c5WElem.label = "ListText"
    ∧ (⟨"w", 0, "ParaText", some "PARAGRAPH", "번역문", 0, [], []⟩ : Element).label = "ParaText"
    ∧ (c5WElem.ctype.isSome →
        (⟨"w", 0, "ParaText", some "PARAGRAPH", "번역문", 0, [], []⟩ : Element).ctype
          = some "PARAGRAPH")
    ∧ (c5WElem.ctype = none →
        (⟨"w", 0, "ParaText", some "PARAGRAPH", "번역문", 0, [], []⟩ : Element).ctype = none) :=
  c5_label_type_sync.1 [c5WElem] 0 c5WElem
    ⟨"w", 0, "ParaText", some "PARAGRAPH", "번역문", 0, [], []⟩ rfl rfl (by decide)

/-! ## C8 — save failure semantics -/

def c8CxDoc : Document := ⟨[⟨"a", 0, "ParaText", some "PARAGRAPH", "내용", 0, [], []⟩]⟩

/-- C8 counterexample: `save_fixes` opens the target with mode `'w'`,
which truncates it in place; an I/O error after zero characters leaves
the file empty, not with its pre-save contents — the failed save
returns `False` and the in-memory document is intact, but the on-disk
state is corrupted. -/
theorem c8_save_atomic_cx :
    saveFixes ⟨true, some c8CxDoc⟩ "ORIGINAL" (SaveOutcome.failDuring 0)
      = (false, ⟨true, some c8CxDoc⟩, "")
    ∧ ("" : String) ≠ "ORIGINAL" := ⟨rfl, by decide⟩

/-- C8 (amended): on any failing outcome `save_fixes` returns `False`
and the in-memory fixer state is unchanged (the caller may retry); the
on-disk contents are either untouched (failure before the file is
opened, or nothing loaded) or a prefix of the new serialization —
because the write is in place, a mid-write failure is observable as a
partial file. -/
theorem c8_save_failure (s : FixerState) (disk : String) (o : SaveOutcome)
    (ho : o ≠ SaveOutcome.ok) :
    (saveFixes s disk o).1 = false
    ∧ (saveFixes s disk o).2.1 = s
    ∧ ((saveFixes s disk o).2.2 = disk
        ∨ ∃ k d, s.data = some d
            ∧ (saveFixes s disk o).2.2 = takeChars k (serializeDoc d)) := by
  unfold saveFixes
  split
  · exact ⟨rfl, rfl, Or.inl rfl⟩
  · rename_i hguard
    push_neg at hguard
    obtain ⟨d, hd⟩ := Option.ne_none_iff_exists'.mp hguard.2
    cases o with
    | ok => exact absurd rfl ho
    | failOpen => exact ⟨rfl, rfl, Or.inl rfl⟩
    | failDuring k => exact ⟨rfl, rfl, Or.inr ⟨k, d, hd, by rw [hd]; rfl⟩⟩

def c8WDoc : Document := ⟨[⟨"b", 0, "ParaText", some "PARAGRAPH", "본문", 0, [], []⟩]⟩

theorem c8_save_failure_witness :
    (saveFixes ⟨true, some c8WDoc⟩ "D" SaveOutcome.failOpen).1 = false
    ∧ (saveFixes ⟨true, some c8WDoc⟩ "D" SaveOutcome.failOpen).2.1
        = (⟨true, some c8WDoc⟩ : FixerState)
    ∧ ((saveFixes ⟨true, some c8WDoc⟩ "D" SaveOutcome.failOpen).2.2 = "D"
        ∨ ∃ k d, (⟨true, some c8WDoc⟩ : FixerState).data = some d
            ∧ (saveFixes ⟨true, some c8WDoc⟩ "D" SaveOutcome.failOpen).2.2
                = takeChars k (serializeDoc d)) :=
  c8_save_failure ⟨true, some c8WDoc⟩ "D" SaveOutcome.failOpen (by decide)

/-! ## C9 — load failure semantics -/

/-- C9 counterexample: a malformed visual-info JSON is loaded by
`RuleBasedFixer.__init__` with an unguarded `json.load`, so the parse
exception propagates out of the constructor. -/
theorem c9_malformed_raises_cx :
    initFixer (some RawFile.malformed) = Except.error "json.decoder.JSONDecodeError" := rfl

/-- C9 (amended): when the visual-info file is missing the constructor
succeeds with empty data, every fix pass reports zero fixes without
touching the state, and save reports failure; but for a malformed JSON
file the constructor itself propagates the parse exception — the
no-exception guarantee holds only in the missing-file case. -/
theorem c9_missing_file_graceful :
    initFixer none = Except.ok ⟨false, none⟩
    ∧ (runAllRuleFixesSt ⟨false, none⟩).1 = ⟨false, none⟩
    ∧ (runAllRuleFixesSt ⟨false, none⟩).2 = ⟨[], [], [], [], []⟩
    ∧ ∀ (disk : String) (o : SaveOutcome),
        saveFixes ⟨false, none⟩ disk o = (false, ⟨false, none⟩, disk) := by
  refine ⟨rfl, rfl, rfl, ?_⟩
  intro disk o
  unfold saveFixes
  rw [if_pos (Or.inl rfl)]
